import Mathlib

/-
Shallow embedding of the solar-structure calculator's computational core
(rod capacity, structure distribution, leg trigonometry, rod totals,
cutting-stock planning, cost aggregation, inventory reconciliation).

Conventions used throughout:
* JavaScript numbers are modelled as exact rationals (`ℚ`) or reals (`ℝ`);
  decimal literals and arithmetic are treated as exact.
* `toFixed(d)` followed by `parseFloat`/`Number` is modelled by rounding to
  `d` decimal places; JavaScript's `toFixed` rounds ties towards `+∞`,
  which is exactly Mathlib's `round`.
* A JavaScript `while` loop is modelled with an explicit fuel parameter;
  `none` means the loop was still running when the fuel ran out, so
  "`none` for every fuel" models divergence.
-/

/-- Model of `x.toFixed(2)` parsed back to a number: round to 2 decimal places. -/
def round2 {α : Type} [LinearOrderedField α] [FloorRing α] (x : α) : α :=
  ((round (100 * x) : ℤ) : α) / 100

/-- Model of `x.toFixed(0)` parsed back to a number: round to 0 decimal places. -/
def round0 {α : Type} [LinearOrderedField α] [FloorRing α] (x : α) : α :=
  ((round x : ℤ) : α)

/-! ### Rod capacity (`calculatePanelsPerRod`) -/

/-- The `while` loop inside `calculatePanelsPerRod`:
`let maxPanels = 0; while (maxPanels * panelLen + (maxPanels - 1) * gap <= rodLength) maxPanels++;
return maxPanels - 1;`
modelled with explicit fuel.  `some r` is the returned value `maxPanels - 1`
(an integer, as in the source); `none` means the fuel ran out with the loop
still iterating. -/
def panelsPerRodLoop (panelLen rodLength gap : ℚ) : ℕ → ℕ → Option ℤ
  | 0, _ => none
  | fuel + 1, maxPanels =>
      if (maxPanels : ℚ) * panelLen + ((maxPanels : ℚ) - 1) * gap ≤ rodLength then
        panelsPerRodLoop panelLen rodLength gap fuel (maxPanels + 1)
      else
        some ((maxPanels : ℤ) - 1)

/-- Embedding of `calculatePanelsPerRod(panelLen, rodLength = 164, gap = 5)` from
`HomeClient.tsx` (the same function appears verbatim in the legacy page
variant). -/
def calculatePanelsPerRod (panelLen rodLength gap : ℚ) (fuel : ℕ) : Option ℤ :=
  panelsPerRodLoop panelLen rodLength gap fuel 0

lemma panelsPerRod_cond_iff (panelLen : ℚ) (h : 0 < panelLen + 5) (m : ℕ) :
    ((m : ℚ) * panelLen + ((m : ℚ) - 1) * 5 ≤ 164) ↔
      m ≤ ⌊(169 : ℚ) / (panelLen + 5)⌋₊ := by
  have hq : (0 : ℚ) ≤ 169 / (panelLen + 5) := by positivity
  rw [Nat.le_floor_iff hq, le_div_iff h]
  constructor <;> intro hx <;> nlinarith

lemma panelsPerRodLoop_run (panelLen : ℚ) (h : 0 < panelLen + 5) :
    ∀ (d m fuel : ℕ), m + d = ⌊(169 : ℚ) / (panelLen + 5)⌋₊ + 1 → d + 1 ≤ fuel →
      panelsPerRodLoop panelLen 164 5 fuel m =
        some ((⌊(169 : ℚ) / (panelLen + 5)⌋₊ : ℤ)) := by
  intro d
  induction d with
  | zero =>
      intro m fuel hm hf
      obtain ⟨f, rfl⟩ : ∃ f, fuel = f + 1 := ⟨fuel - 1, by omega⟩
      rw [panelsPerRodLoop, if_neg]
      · congr 1
        omega
      · rw [panelsPerRod_cond_iff panelLen h m]
        omega
  | succ d ih =>
      intro m fuel hm hf
      obtain ⟨f, rfl⟩ : ∃ f, fuel = f + 1 := ⟨fuel - 1, by omega⟩
      rw [panelsPerRodLoop, if_pos]
      · exact ih (m + 1) f (by omega) (by omega)
      · rw [panelsPerRod_cond_iff panelLen h m]
        omega

/-- C1: for every rational `panelLen > 0` (with `rodLength = 164`, `gap = 5`),
the `calculatePanelsPerRod` loop terminates (given enough fuel) and returns
the unique `k ≥ 0` with `k*panelLen + (k-1)*gap ≤ rodLength` and
`(k+1)*panelLen + k*gap > rodLength`, which equals
`floor((rodLength+gap)/(panelLen+gap))` clamped to be `≥ 0`. -/
theorem C1_panelsPerRod_exact (panelLen : ℚ) (hpos : 0 < panelLen) :
    ∃ k : ℕ,
      (∀ fuel : ℕ, k + 2 ≤ fuel →
        calculatePanelsPerRod panelLen 164 5 fuel = some (k : ℤ)) ∧
      (k : ℚ) * panelLen + ((k : ℚ) - 1) * 5 ≤ 164 ∧
      (164 : ℚ) < ((k : ℚ) + 1) * panelLen + (k : ℚ) * 5 ∧
      (k : ℤ) = max 0 ⌊(164 + 5 : ℚ) / (panelLen + 5)⌋ := by
  have h5 : 0 < panelLen + 5 := by linarith
  refine ⟨⌊(169 : ℚ) / (panelLen + 5)⌋₊, ?_, ?_, ?_, ?_⟩
  · intro fuel hf
    exact panelsPerRodLoop_run panelLen h5 (⌊(169 : ℚ) / (panelLen + 5)⌋₊ + 1) 0 fuel
      (by omega) (by omega)
  · rw [panelsPerRod_cond_iff panelLen h5]
  · have hnot : ¬ ((((⌊(169 : ℚ) / (panelLen + 5)⌋₊ + 1 : ℕ)) : ℚ) * panelLen +
        (((⌊(169 : ℚ) / (panelLen + 5)⌋₊ + 1 : ℕ) : ℚ) - 1) * 5 ≤ 164) := by
      rw [panelsPerRod_cond_iff panelLen h5]
      omega
    rw [not_le] at hnot
    push_cast at hnot ⊢
    linarith
  · have hq : (0 : ℚ) ≤ 169 / (panelLen + 5) := by positivity
    have h1 : (0 : ℤ) ≤ ⌊(169 : ℚ) / (panelLen + 5)⌋ := Int.floor_nonneg.mpr hq
    have h2 : ((⌊(169 : ℚ) / (panelLen + 5)⌋₊ : ℤ)) = ⌊(169 : ℚ) / (panelLen + 5)⌋ := by
      rw [← Int.floor_toNat, Int.toNat_of_nonneg h1]
    have h3 : ((164 : ℚ) + 5) = 169 := by norm_num
    rw [h3, h2, max_eq_right h1]

/-- Witness for C1 at `panelLen = 45`. -/
theorem C1_panelsPerRod_exact_witness :
    (0 : ℚ) < 45 ∧
    ∃ k : ℕ,
      (∀ fuel : ℕ, k + 2 ≤ fuel →
        calculatePanelsPerRod 45 164 5 fuel = some (k : ℤ)) ∧
      (k : ℚ) * 45 + ((k : ℚ) - 1) * 5 ≤ 164 ∧
      (164 : ℚ) < ((k : ℚ) + 1) * 45 + (k : ℚ) * 5 ∧
      (k : ℤ) = max 0 ⌊(164 + 5 : ℚ) / (45 + 5)⌋ :=
  ⟨by norm_num, C1_panelsPerRod_exact 45 (by norm_num)⟩

/-- C8 counterexample: at `panelLen = 0` the loop terminates normally and
returns the panel count `33`; no error of any kind is raised. -/
theorem C8_counterexample : calculatePanelsPerRod 0 164 5 40 = some 33 := by
  norm_num [calculatePanelsPerRod, panelsPerRodLoop]

/-- C8 (amended): for `panelLen ≤ 0` no `InvalidDimension` failure exists in
the code.  If `-5 < panelLen ≤ 0` the loop silently terminates and returns
`floor(169/(panelLen+5))` as a panel count; if `panelLen ≤ -5` the loop never
terminates (out of fuel for every fuel). -/
theorem C8_amended (panelLen : ℚ) (hle : panelLen ≤ 0) :
    ((-5 : ℚ) < panelLen →
      ∀ fuel : ℕ, ⌊(169 : ℚ) / (panelLen + 5)⌋₊ + 2 ≤ fuel →
        calculatePanelsPerRod panelLen 164 5 fuel =
          some ((⌊(169 : ℚ) / (panelLen + 5)⌋₊ : ℤ))) ∧
    (panelLen ≤ -5 → ∀ fuel m : ℕ, panelsPerRodLoop panelLen 164 5 fuel m = none) := by
  constructor
  · intro hgt fuel hf
    have h5 : 0 < panelLen + 5 := by linarith
    exact panelsPerRodLoop_run panelLen h5 (⌊(169 : ℚ) / (panelLen + 5)⌋₊ + 1) 0 fuel
      (by omega) (by omega)
  · intro hneg fuel
    induction fuel with
    | zero => intro m; rfl
    | succ f ih =>
        intro m
        rw [panelsPerRodLoop, if_pos]
        · exact ih (m + 1)
        · have hm : (0 : ℚ) ≤ (m : ℚ) := by positivity
          nlinarith

/-- Witness for C8 (amended) at `panelLen = -1`. -/
theorem C8_amended_witness :
    ((-1 : ℚ) ≤ 0) ∧
    (((-5 : ℚ) < -1 →
      ∀ fuel : ℕ, ⌊(169 : ℚ) / (-1 + 5)⌋₊ + 2 ≤ fuel →
        calculatePanelsPerRod (-1) 164 5 fuel =
          some ((⌊(169 : ℚ) / (-1 + 5)⌋₊ : ℤ))) ∧
    ((-1 : ℚ) ≤ -5 → ∀ fuel m : ℕ, panelsPerRodLoop (-1) 164 5 fuel m = none)) :=
  ⟨by norm_num, C8_amended (-1) (by norm_num)⟩

/-! ### Structure distribution -/

/-- A structure group `{panels, count}`. -/
structure StructureGroup where
  panels : ℕ
  count : ℕ
deriving DecidableEq

/-- Sum `Σ panels_i * count_i` over a group list. -/
def groupPanelSum (gs : List StructureGroup) : ℕ :=
  (gs.map (fun g => g.panels * g.count)).sum

/-- Embedding of `smartDistributePanels(totalPanels, maxPanelsPerRod)` from the legacy
page variant: greedy-uniform distribution
(`fullStructures = floor(total/max)`, `remainingPanels = total % max`). -/
def smartDistributePanels (totalPanels maxPanelsPerRod : ℕ) : List StructureGroup :=
  let fullStructures := totalPanels / maxPanelsPerRod
  let remainingPanels := totalPanels % maxPanelsPerRod
  if remainingPanels = 0 then
    [⟨maxPanelsPerRod, fullStructures⟩]
  else
    [StructureGroup.mk maxPanelsPerRod fullStructures, StructureGroup.mk remainingPanels 1].filter
      (fun s => 0 < s.count)

section BalancedCore

variable {α : Type} [LinearOrderedAddCommMonoid α]

/-- The inner loop filling `dp[n]`/`pick[n]` in `distributePanelsBalanced`:
`for (k = 1; k <= lim; k++) { score = dp[n-k] + aspectPenalty(k) + STRUCTURE_PENALTY;
if (score < dp[n]) { dp[n] = score; pick[n] = k; } }` starting from
`dp[n] = Infinity, pick[n] = 0`.  `⊤` plays the role of `Infinity` and
`prev.getD (n-k) ⊤` the role of `dp[n-k]`. -/
def dpStep (pen : ℕ → α) (sp : α) (prev : List (WithTop α)) (n lim : ℕ) :
    WithTop α × ℕ :=
  ((List.range lim).map (fun i => i + 1)).foldl
    (fun acc k =>
      let score := prev.getD (n - k) ⊤ + (pen k : WithTop α) + (sp : WithTop α)
      if score < acc.1 then (score, k) else acc)
    (⊤, 0)

/-- The `dp`/`pick` arrays after filling indices `0..n` (`dp[0] = 0`,
`pick[0] = 0`); first component holds the scores, second the chosen sizes. -/
def dpTables (maxK : ℕ) (pen : ℕ → α) (sp : α) : ℕ → List (WithTop α) × List ℕ
  | 0 => ([0], [0])
  | n + 1 =>
      let t := dpTables maxK pen sp n
      let s := dpStep pen sp t.1 (n + 1) (min maxK (n + 1))
      (t.1 ++ [s.1], t.2 ++ [s.2])

/-- Entry `pick[n]` read from the tables built for `N` panels. -/
def dpPick (maxK : ℕ) (pen : ℕ → α) (sp : α) (N n : ℕ) : ℕ :=
  (dpTables maxK pen sp N).2.getD n 0

end BalancedCore

/-- The reconstruction loop
`while (n > 0) { const k = pick[n] || 1; sizes.push(k); n -= k; }`. -/
def reconstructSizes (pick : ℕ → ℕ) (n : ℕ) : List ℕ :=
  if h : n = 0 then []
  else
    (if pick n = 0 then 1 else pick n) ::
      reconstructSizes pick (n - (if pick n = 0 then 1 else pick n))
termination_by n
decreasing_by
  split <;> omega

/-- One step of the run-length compression fold in `distributePanelsBalanced`
(`if (last && last.panels === k) last.count += 1; else out.push({panels: k, count: 1})`).
The accumulator is kept in reverse, so "the last pushed group" is the head. -/
def compressStep (rout : List StructureGroup) (k : ℕ) : List StructureGroup :=
  match rout with
  | last :: rest =>
      if last.panels = k then StructureGroup.mk last.panels (last.count + 1) :: rest
      else StructureGroup.mk k 1 :: last :: rest
  | [] => [StructureGroup.mk k 1]

/-- Run-length compression of the (sorted) size list into `[{panels, count}]`
groups; the final `reverse` restores the source's append order. -/
def compressSizes (sizes : List ℕ) : List StructureGroup :=
  (sizes.foldl compressStep []).reverse

/-- Core of `distributePanelsBalanced` with its floating-point scoring abstracted:
the aspect penalty `pen` and the structure penalty `sp` live in an arbitrary
linearly ordered additive monoid (the source uses IEEE doubles);
`N = max(0, floor(totalPanels))` and `maxK = max(1, floor(maxPanelsPerRod))`
are received as naturals. -/
def distributePanelsBalancedCore {α : Type} [LinearOrderedAddCommMonoid α]
    (N maxK : ℕ) (pen : ℕ → α) (sp : α) : List StructureGroup :=
  compressSizes
    ((reconstructSizes (fun n => dpPick maxK pen sp N n) N).mergeSort
      (fun a b => decide (b ≤ a)))

/-- Embedding of `structureFootprintLen(panelsInStructure, panelLen, gap)` from
`HomeClient.tsx`. -/
noncomputable def structureFootprintLen (panelsInStructure : ℕ) (panelLen gap : ℝ) : ℝ :=
  if panelsInStructure = 0 then 0
  else panelsInStructure * panelLen + ((panelsInStructure : ℝ) - 1) * gap

/-- Embedding of `aspectPenalty(k)` from `distributePanelsBalanced`:
`|ln(structureFootprintLen(k) / max(1e-6, panelWid))|`. -/
noncomputable def aspectPenalty (panelLen panelWid gap : ℝ) (k : ℕ) : ℝ :=
  |Real.log (structureFootprintLen k panelLen gap / max 1e-6 panelWid)|

/-- Embedding of `distributePanelsBalanced(totalPanels, maxPanelsPerRod, panelLen, panelWid, gap = GAP)`
from `HomeClient.tsx`: the DP core instantiated at `ℝ` with the real aspect
penalty and `STRUCTURE_PENALTY = 0.35`. -/
noncomputable def distributePanelsBalanced (totalPanels maxPanelsPerRod : ℤ)
    (panelLen panelWid : ℝ) : List StructureGroup :=
  distributePanelsBalancedCore totalPanels.toNat (max 1 maxPanelsPerRod).toNat
    (aspectPenalty panelLen panelWid 5) (0.35 : ℝ)

lemma foldl_pick_bound {β : Type} (f : β × ℕ → ℕ → β × ℕ)
    (hf : ∀ acc k, (f acc k).2 = k ∨ f acc k = acc) (lim : ℕ) :
    ∀ (l : List ℕ) (acc : β × ℕ),
      (∀ k ∈ l, 1 ≤ k ∧ k ≤ lim) →
      (acc.2 = 0 ∨ (1 ≤ acc.2 ∧ acc.2 ≤ lim)) →
      ((l.foldl f acc).2 = 0 ∨ (1 ≤ (l.foldl f acc).2 ∧ (l.foldl f acc).2 ≤ lim)) := by
  intro l
  induction l with
  | nil => intro acc _ hacc; exact hacc
  | cons x xs ih =>
      intro acc hl hacc
      rw [List.foldl_cons]
      apply ih
      · intro k hk
        exact hl k (List.mem_cons_of_mem _ hk)
      · rcases hf acc x with h | h
        · right
          rw [h]
          exact hl x (List.mem_cons_self x xs)
        · rw [h]
          exact hacc

lemma dpStep_pick_cases {α : Type} [LinearOrderedAddCommMonoid α]
    (pen : ℕ → α) (sp : α) (prev : List (WithTop α)) (n lim : ℕ) :
    (dpStep pen sp prev n lim).2 = 0 ∨
      (1 ≤ (dpStep pen sp prev n lim).2 ∧ (dpStep pen sp prev n lim).2 ≤ lim) := by
  apply foldl_pick_bound
  · intro acc k
    dsimp only
    split
    · left
      rfl
    · right
      rfl
  · intro k hk
    rcases List.mem_map.mp hk with ⟨i, hi, rfl⟩
    have := List.mem_range.mp hi
    omega
  · left
    rfl

lemma dpTables_snd_length {α : Type} [LinearOrderedAddCommMonoid α]
    (maxK : ℕ) (pen : ℕ → α) (sp : α) :
    ∀ N, (dpTables maxK pen sp N).2.length = N + 1 := by
  intro N
  induction N with
  | zero => rfl
  | succ n ih => simp [dpTables, ih]

lemma dpPick_cases {α : Type} [LinearOrderedAddCommMonoid α]
    (maxK : ℕ) (pen : ℕ → α) (sp : α) :
    ∀ N n, 1 ≤ n → n ≤ N →
      dpPick maxK pen sp N n = 0 ∨
        (1 ≤ dpPick maxK pen sp N n ∧ dpPick maxK pen sp N n ≤ min maxK n) := by
  intro N
  induction N with
  | zero => intro n h1 h2; omega
  | succ N ih =>
      intro n h1 h2
      rcases Nat.lt_or_ge n (N + 1) with hlt | hge
      · have hstable : dpPick maxK pen sp (N + 1) n = dpPick maxK pen sp N n := by
          unfold dpPick
          rw [dpTables]
          exact List.getD_append _ _ _ _ (by rw [dpTables_snd_length]; omega)
        rw [hstable]
        exact ih n h1 (by omega)
      · have hn : n = N + 1 := by omega
        subst hn
        have hlast : dpPick maxK pen sp (N + 1) (N + 1) =
            (dpStep pen sp (dpTables maxK pen sp N).1 (N + 1) (min maxK (N + 1))).2 := by
          unfold dpPick
          rw [dpTables]
          rw [List.getD_append_right _ _ _ _ (by rw [dpTables_snd_length])]
          rw [dpTables_snd_length]
          simp
        rw [hlast]
        exact dpStep_pick_cases pen sp _ _ _

lemma reconstructSizes_spec (pick : ℕ → ℕ) (maxK : ℕ) (hmax : 1 ≤ maxK) :
    ∀ n, (∀ m, 1 ≤ m → m ≤ n → (pick m = 0 ∨ (1 ≤ pick m ∧ pick m ≤ min maxK m))) →
      (reconstructSizes pick n).sum = n ∧
      ∀ x ∈ reconstructSizes pick n, 1 ≤ x ∧ x ≤ maxK := by
  intro n
  induction n using Nat.strong_induction_on with
  | _ n ih =>
    intro hp
    by_cases h0 : n = 0
    · subst h0
      rw [reconstructSizes]
      simp
    · rw [reconstructSizes, dif_neg h0]
      have hkb : 1 ≤ (if pick n = 0 then 1 else pick n) ∧
          (if pick n = 0 then 1 else pick n) ≤ min maxK n := by
        rcases hp n (by omega) le_rfl with hz | ⟨ha, hb⟩
        · rw [if_pos hz]
          omega
        · rw [if_neg (by omega)]
          omega
      set k := (if pick n = 0 then 1 else pick n) with hkdef
      have hkn : k ≤ n := le_trans hkb.2 (min_le_right _ _)
      have hkm : k ≤ maxK := le_trans hkb.2 (min_le_left _ _)
      obtain ⟨ihsum, ihmem⟩ :=
        ih (n - k) (by omega) (fun m hm1 hm2 => hp m hm1 (by omega))
      refine ⟨?_, ?_⟩
      · rw [List.sum_cons, ihsum]
        omega
      · intro x hx
        rcases List.mem_cons.mp hx with rfl | hx
        · exact ⟨hkb.1, hkm⟩
        · exact ihmem x hx

lemma compressStep_gsum (rout : List StructureGroup) (k : ℕ) :
    groupPanelSum (compressStep rout k) = groupPanelSum rout + k := by
  cases rout with
  | nil => simp [compressStep, groupPanelSum]
  | cons last rest =>
      by_cases h : last.panels = k
      · subst h
        simp [compressStep, groupPanelSum, Nat.mul_succ]
        omega
      · simp [compressStep, h, groupPanelSum]
        omega

lemma compressStep_mem (P : ℕ → Prop) (rout : List StructureGroup) (k : ℕ)
    (hr : ∀ g ∈ rout, P g.panels) (hk : P k) :
    ∀ g ∈ compressStep rout k, P g.panels := by
  cases rout with
  | nil =>
      intro g hg
      simp only [compressStep, List.mem_singleton] at hg
      subst hg
      exact hk
  | cons last rest =>
      intro g hg
      by_cases h : last.panels = k
      · rw [compressStep] at hg
        rw [if_pos h] at hg
        rcases List.mem_cons.mp hg with rfl | hg
        · rw [h]
          exact hk
        · exact hr g (List.mem_cons_of_mem _ hg)
      · rw [compressStep] at hg
        rw [if_neg h] at hg
        rcases List.mem_cons.mp hg with rfl | hg
        · exact hk
        · exact hr g hg

lemma compress_foldl_gsum :
    ∀ (sizes : List ℕ) (rout : List StructureGroup),
      groupPanelSum (sizes.foldl compressStep rout) = groupPanelSum rout + sizes.sum := by
  intro sizes
  induction sizes with
  | nil => intro rout; simp
  | cons x xs ih =>
      intro rout
      rw [List.foldl_cons, ih, compressStep_gsum, List.sum_cons]
      omega

lemma compress_foldl_mem (P : ℕ → Prop) :
    ∀ (sizes : List ℕ) (rout : List StructureGroup),
      (∀ k ∈ sizes, P k) → (∀ g ∈ rout, P g.panels) →
      ∀ g ∈ sizes.foldl compressStep rout, P g.panels := by
  intro sizes
  induction sizes with
  | nil => intro rout _ hr; exact hr
  | cons x xs ih =>
      intro rout hs hr
      rw [List.foldl_cons]
      exact ih _ (fun k hk => hs k (List.mem_cons_of_mem _ hk))
        (compressStep_mem P rout x hr (hs x (List.mem_cons_self x xs)))

lemma groupPanelSum_reverse (gs : List StructureGroup) :
    groupPanelSum gs.reverse = groupPanelSum gs := by
  simp [groupPanelSum, List.map_reverse, List.sum_reverse]

lemma compressSizes_gsum (sizes : List ℕ) :
    groupPanelSum (compressSizes sizes) = sizes.sum := by
  rw [compressSizes, groupPanelSum_reverse, compress_foldl_gsum]
  simp [groupPanelSum]

lemma compressSizes_mem (P : ℕ → Prop) (sizes : List ℕ) (hs : ∀ k ∈ sizes, P k) :
    ∀ g ∈ compressSizes sizes, P g.panels := by
  intro g hg
  rw [compressSizes, List.mem_reverse] at hg
  exact compress_foldl_mem P sizes [] hs (by intro g hg; cases hg) g hg

lemma balancedCore_spec {α : Type} [LinearOrderedAddCommMonoid α]
    (N maxK : ℕ) (hmax : 1 ≤ maxK) (pen : ℕ → α) (sp : α) :
    groupPanelSum (distributePanelsBalancedCore N maxK pen sp) = N ∧
    ∀ g ∈ distributePanelsBalancedCore N maxK pen sp, g.panels ≤ maxK := by
  have hpick : ∀ m, 1 ≤ m → m ≤ N →
      (dpPick maxK pen sp N m = 0 ∨
        (1 ≤ dpPick maxK pen sp N m ∧ dpPick maxK pen sp N m ≤ min maxK m)) :=
    fun m h1 h2 => dpPick_cases maxK pen sp N m h1 h2
  obtain ⟨hsum, hmem⟩ := reconstructSizes_spec (fun n => dpPick maxK pen sp N n) maxK hmax N hpick
  have hperm := List.mergeSort_perm
    (reconstructSizes (fun n => dpPick maxK pen sp N n) N) (fun a b => decide (b ≤ a))
  constructor
  · rw [distributePanelsBalancedCore, compressSizes_gsum, hperm.sum_eq, hsum]
  · intro g hg
    refine compressSizes_mem (fun k => k ≤ maxK) _ ?_ g hg
    intro k hk
    exact (hmem k (List.mem_mergeSort.mp hk)).2

lemma smartDistributePanels_spec (totalPanels maxPanelsPerRod : ℕ)
    (hmax : 1 ≤ maxPanelsPerRod) :
    groupPanelSum (smartDistributePanels totalPanels maxPanelsPerRod) = totalPanels ∧
    ∀ g ∈ smartDistributePanels totalPanels maxPanelsPerRod,
      g.panels ≤ maxPanelsPerRod := by
  have hdm := Nat.div_add_mod totalPanels maxPanelsPerRod
  rw [smartDistributePanels]
  by_cases h : totalPanels % maxPanelsPerRod = 0
  · rw [if_pos h]
    constructor
    · rw [h, Nat.add_zero] at hdm
      simpa [groupPanelSum] using hdm
    · intro g hg
      rw [List.mem_singleton] at hg
      subst hg
      exact le_rfl
  · rw [if_neg h]
    have hmod : totalPanels % maxPanelsPerRod < maxPanelsPerRod :=
      Nat.mod_lt _ (by omega)
    by_cases hq : totalPanels / maxPanelsPerRod = 0
    · have hfil : [StructureGroup.mk maxPanelsPerRod (totalPanels / maxPanelsPerRod),
          StructureGroup.mk (totalPanels % maxPanelsPerRod) 1].filter
            (fun s => 0 < s.count) =
          [StructureGroup.mk (totalPanels % maxPanelsPerRod) 1] := by
        rw [hq]
        simp [List.filter]
      rw [hfil]
      rw [hq, Nat.mul_zero, Nat.zero_add] at hdm
      constructor
      · simpa [groupPanelSum] using hdm
      · intro g hg
        rw [List.mem_singleton] at hg
        subst hg
        exact le_of_lt hmod
    · have hq1 : 0 < totalPanels / maxPanelsPerRod := Nat.pos_of_ne_zero hq
      have hfil : [StructureGroup.mk maxPanelsPerRod (totalPanels / maxPanelsPerRod),
          StructureGroup.mk (totalPanels % maxPanelsPerRod) 1].filter
            (fun s => 0 < s.count) =
          [StructureGroup.mk maxPanelsPerRod (totalPanels / maxPanelsPerRod),
            StructureGroup.mk (totalPanels % maxPanelsPerRod) 1] := by
        simp [List.filter, hq1]
      rw [hfil]
      constructor
      · simpa [groupPanelSum] using hdm
      · intro g hg
        rcases List.mem_cons.mp hg with rfl | hg2
        · exact le_rfl
        · rw [List.mem_singleton] at hg2
          subst hg2
          exact le_of_lt hmod

/-- C2: for every `totalPanels ≥ 0` and `maxPanelsPerRod ≥ 1`, the group
lists produced by both distributor strategies (greedy-uniform
`smartDistributePanels` and the aspect-penalized DP
`distributePanelsBalanced`, for every penalty function) satisfy
`Σ panels_i * count_i = totalPanels` exactly, and every group's `panels`
is at most `maxPanelsPerRod`. -/
theorem C2_distribution_invariant (totalPanels maxPanelsPerRod : ℕ)
    (hmax : 1 ≤ maxPanelsPerRod) :
    (groupPanelSum (smartDistributePanels totalPanels maxPanelsPerRod) = totalPanels ∧
      ∀ g ∈ smartDistributePanels totalPanels maxPanelsPerRod,
        g.panels ≤ maxPanelsPerRod) ∧
    (∀ (α : Type) [LinearOrderedAddCommMonoid α], ∀ (pen : ℕ → α) (sp : α),
      groupPanelSum (distributePanelsBalancedCore totalPanels maxPanelsPerRod pen sp) =
        totalPanels ∧
      ∀ g ∈ distributePanelsBalancedCore totalPanels maxPanelsPerRod pen sp,
        g.panels ≤ maxPanelsPerRod) ∧
    (∀ panelLen panelWid : ℝ,
      groupPanelSum
        (distributePanelsBalanced (totalPanels : ℤ) (maxPanelsPerRod : ℤ) panelLen panelWid) =
        totalPanels ∧
      ∀ g ∈ distributePanelsBalanced (totalPanels : ℤ) (maxPanelsPerRod : ℤ) panelLen panelWid,
        g.panels ≤ maxPanelsPerRod) := by
  refine ⟨smartDistributePanels_spec _ _ hmax, ?_, ?_⟩
  · intro α instα pen sp
    exact balancedCore_spec totalPanels maxPanelsPerRod hmax pen sp
  · intro panelLen panelWid
    have hN : ((totalPanels : ℤ)).toNat = totalPanels := by omega
    have hK : (max 1 (maxPanelsPerRod : ℤ)).toNat = maxPanelsPerRod := by omega
    rw [distributePanelsBalanced, hN, hK]
    exact balancedCore_spec totalPanels maxPanelsPerRod hmax _ _

/-- Witness for C2 at `totalPanels = 5`, `maxPanelsPerRod = 3`. -/
theorem C2_distribution_invariant_witness :
    1 ≤ 3 ∧
    ((groupPanelSum (smartDistributePanels 5 3) = 5 ∧
      ∀ g ∈ smartDistributePanels 5 3, g.panels ≤ 3) ∧
    (∀ (α : Type) [LinearOrderedAddCommMonoid α], ∀ (pen : ℕ → α) (sp : α),
      groupPanelSum (distributePanelsBalancedCore 5 3 pen sp) = 5 ∧
      ∀ g ∈ distributePanelsBalancedCore 5 3 pen sp, g.panels ≤ 3) ∧
    (∀ panelLen panelWid : ℝ,
      groupPanelSum (distributePanelsBalanced (5 : ℤ) (3 : ℤ) panelLen panelWid) = 5 ∧
      ∀ g ∈ distributePanelsBalanced (5 : ℤ) (3 : ℤ) panelLen panelWid,
        g.panels ≤ 3)) :=
  ⟨by norm_num, by
    have h := C2_distribution_invariant 5 3 (by norm_num)
    simpa using h⟩

/-! ### Leg geometry (`calculateLegsPerStructure`) -/

/-- The record returned by `calculateLegsPerStructure`.  The source returns
`rearLegHeight` and `hypotenuseRodLength` as `toFixed(2)` strings; they are
modelled by their parsed numeric values (2-decimal roundings). -/
structure LegSet where
  totalFrontLegs : ℕ
  totalRearLegs : ℕ
  frontLegHeight : ℝ
  rearLegHeight : ℝ
  panelsPerStructure : ℕ
  hypotenuseRodLength : ℝ

/-- The quantity `totalHypotenuse = (panelLen + gap) * panelsPerStructure`. -/
noncomputable def totalHypotenuseLen (panelLen gap : ℝ) (panels : ℕ) : ℝ :=
  (panelLen + gap) * panels

/-- The quantity `triangleHeight = totalHypotenuse * Math.sin(tiltAngle * Math.PI / 180)`
(legacy page variant, without the `2/3` factor). -/
noncomputable def triangleHeightLegacy (panelLen gap : ℝ) (panels : ℕ) (tiltAngle : ℝ) : ℝ :=
  totalHypotenuseLen panelLen gap panels * Real.sin (tiltAngle * Real.pi / 180)

/-- The quantity `triangleHeight = (totalHypotenuse * 2 / 3) * Math.sin(tiltAngle * Math.PI / 180)`
(`HomeClient.tsx` variant, with the `2/3` support-fraction factor). -/
noncomputable def triangleHeightHome (panelLen gap : ℝ) (panels : ℕ) (tiltAngle : ℝ) : ℝ :=
  totalHypotenuseLen panelLen gap panels * 2 / 3 * Real.sin (tiltAngle * Real.pi / 180)

/-- Embedding of `calculateLegsPerStructure(frontLegHeight, panelsPerStructure, panelLen,
tiltAngle = 19, gap = 5)` from the legacy page variant
(`triangleHeight` without the `2/3` factor). -/
noncomputable def calculateLegsPerStructure (frontLegHeight : ℝ) (panelsPerStructure : ℕ)
    (panelLen tiltAngle gap : ℝ) : LegSet :=
  ⟨2, 2, frontLegHeight,
    round2 (frontLegHeight + triangleHeightLegacy panelLen gap panelsPerStructure tiltAngle),
    panelsPerStructure,
    round2 (totalHypotenuseLen panelLen gap panelsPerStructure)⟩

/-- Embedding of `calculateLegsPerStructure` from `HomeClient.tsx` (the variant whose
`triangleHeight` carries the `2/3` factor). -/
noncomputable def calculateLegsPerStructureHome (frontLegHeight : ℝ) (panelsPerStructure : ℕ)
    (panelLen tiltAngle gap : ℝ) : LegSet :=
  ⟨2, 2, frontLegHeight,
    round2 (frontLegHeight + triangleHeightHome panelLen gap panelsPerStructure tiltAngle),
    panelsPerStructure,
    round2 (totalHypotenuseLen panelLen gap panelsPerStructure)⟩

lemma round2_close (y : ℝ) : |round2 y - y| ≤ 1 / 200 := by
  rw [round2]
  have h := abs_sub_round (100 * y)
  rw [abs_sub_comm] at h
  have heq : ((round (100 * y) : ℤ) : ℝ) / 100 - y =
      (((round (100 * y) : ℤ) : ℝ) - 100 * y) / 100 := by ring
  rw [heq, abs_div, abs_of_pos (by norm_num : (0:ℝ) < 100)]
  linarith

lemma sin19_bounds :
    (0.3248 : ℝ) < Real.sin (19 * Real.pi / 180) ∧
      Real.sin (19 * Real.pi / 180) < 0.3263 := by
  have hpi1 : (3.141592 : ℝ) < Real.pi := Real.pi_gt_d6
  have hpi2 : Real.pi < 3.141593 := Real.pi_lt_d6
  set x := 19 * Real.pi / 180 with hxdef
  have hx1 : (0.3316124 : ℝ) < x := by rw [hxdef]; nlinarith
  have hx2 : x < 0.3316126 := by rw [hxdef]; nlinarith
  have hx0 : (0 : ℝ) < x := by linarith
  have hsq : x ^ 2 < 0.1099670 := by nlinarith
  have hsq1 : (0.1099660 : ℝ) < x ^ 2 := by nlinarith
  have hcub : x ^ 3 < 0.0364670 := by nlinarith
  have hcub1 : (0.0364650 : ℝ) < x ^ 3 := by nlinarith
  have hquart : x ^ 4 < 0.0120950 := by nlinarith
  have hxabs : |x| ≤ 1 := by rw [abs_le]; constructor <;> linarith
  have hb := Real.sin_bound hxabs
  rw [abs_le] at hb
  have habs : |x| ^ 4 * (5 / 96) ≤ 0.00063 := by
    rw [abs_of_pos hx0]
    nlinarith
  constructor
  · nlinarith [hb.1]
  · nlinarith [hb.2]

/-- C3: with `frontLegHeight = 24`, `panelsPerStructure = 3`, `panelLen = 45`,
`gap = 5`, `tiltAngle = 19°`, `calculateLegsPerStructure` (legacy variant,
`triangleHeight = totalHypotenuse * sin`) yields `totalHypotenuse = 150`
(reported as `hypotenuseRodLength`), `triangleHeight = 150 * sin(19°) ≈ 48.84`
and `rearLegHeight = frontLegHeight + triangleHeight ≈ 72.84` (rounded to
2 decimals by `toFixed(2)`). -/
theorem C3_leg_geometry :
    totalHypotenuseLen 45 5 3 = 150 ∧
    triangleHeightLegacy 45 5 3 19 = 150 * Real.sin (19 * Real.pi / 180) ∧
    |triangleHeightLegacy 45 5 3 19 - 48.84| < 0.15 ∧
    (calculateLegsPerStructure 24 3 45 19 5).rearLegHeight =
      round2 (24 + triangleHeightLegacy 45 5 3 19) ∧
    |(calculateLegsPerStructure 24 3 45 19 5).rearLegHeight - 72.84| < 0.15 ∧
    (calculateLegsPerStructure 24 3 45 19 5).hypotenuseRodLength = 150 := by
  have htot : totalHypotenuseLen 45 5 3 = 150 := by
    rw [totalHypotenuseLen]
    norm_num
  have htri : triangleHeightLegacy 45 5 3 19 = 150 * Real.sin (19 * Real.pi / 180) := by
    rw [triangleHeightLegacy, htot]
  have hsin := sin19_bounds
  have htri_bound : |triangleHeightLegacy 45 5 3 19 - 48.84| < 0.15 := by
    rw [htri, abs_lt]
    constructor <;> nlinarith [hsin.1, hsin.2]
  have hrear : (calculateLegsPerStructure 24 3 45 19 5).rearLegHeight =
      round2 (24 + triangleHeightLegacy 45 5 3 19) := rfl
  refine ⟨htot, htri, htri_bound, hrear, ?_, ?_⟩
  · rw [hrear]
    have hclose := round2_close (24 + triangleHeightLegacy 45 5 3 19)
    rw [abs_le] at hclose
    rw [abs_lt]
    constructor <;> nlinarith [hsin.1, hsin.2, hclose.1, hclose.2, htri]
  · show round2 (totalHypotenuseLen 45 5 3) = 150
    rw [htot, round2]
    have h1 : (100 : ℝ) * 150 = ((15000 : ℤ) : ℝ) := by norm_num
    rw [h1, round_intCast]
    norm_num

/-! ### Rod totals (`calculateRodsForProject`) -/

/-- One entry of the per-group breakdown.  `inchesThisType` is reported as a
`toFixed(0)` string, modelled by its parsed value. -/
structure BreakdownEntry where
  panels : ℕ
  count : ℕ
  legs : LegSet
  frontLegsCount : ℕ
  rearLegsCount : ℕ
  hypoRodsCount : ℕ
  inchesThisType : ℝ

/-- The totals record of `calculateRodsForProject`; `totalInchesRequired` is
reported as a `toFixed(0)` string, modelled by its parsed value. -/
structure RodTotals where
  totalFrontLegs : ℕ
  totalRearLegs : ℕ
  totalHypoRods : ℕ
  totalInchesRequired : ℝ
  totalRodsNeeded : ℤ

/-- The result of `calculateRodsForProject`. -/
structure RodsResult where
  breakdown : List BreakdownEntry
  totals : RodTotals
  isUniform : Bool

/-- The exact (unrounded) inches contributed by one structure group:
`inchesFront + inchesRear + inchesHypo` where
`inchesFront = frontLegsCount * frontLegHeight`,
`inchesRear = rearLegsCount * parseFloat(legs.rearLegHeight)` and
`inchesHypo = hypoRodsCount * parseFloat(legs.hypotenuseRodLength)`. -/
noncomputable def inchesForGroup (frontLegHeight panelLen : ℝ) (s : StructureGroup) : ℝ :=
  let legs := calculateLegsPerStructureHome frontLegHeight s.panels panelLen 19 5
  ((legs.totalFrontLegs * s.count : ℕ) : ℝ) * frontLegHeight +
    ((legs.totalRearLegs * s.count : ℕ) : ℝ) * legs.rearLegHeight +
    ((2 * s.count : ℕ) : ℝ) * legs.hypotenuseRodLength

/-- One `breakdown` entry of `calculateRodsForProject` (`HomeClient.tsx`):
`frontLegsCount = legs.totalFrontLegs * count`, etc., and
`inchesThisType = (inchesFront + inchesRear + inchesHypo).toFixed(0)`. -/
noncomputable def breakdownFor (frontLegHeight panelLen : ℝ) (s : StructureGroup) :
    BreakdownEntry :=
  let legs := calculateLegsPerStructureHome frontLegHeight s.panels panelLen 19 5
  ⟨s.panels, s.count, legs, legs.totalFrontLegs * s.count, legs.totalRearLegs * s.count,
    2 * s.count, round0 (inchesForGroup frontLegHeight panelLen s)⟩

/-- Embedding of `calculateRodsForProject(structures, frontLegHeight, panelLen, rodLength = 164)`
from `HomeClient.tsx`.  The source accumulates `totalFrontLegs`, ...,
`totalInches` in mutable variables while mapping over `structures`; the
accumulations are modelled as sums over the same list (`totalInches` sums
the unrounded `inchesThisType` values, while each breakdown entry reports
the `toFixed(0)` rounding).  `totalRodsNeeded = Math.ceil(totalInches /
rodLength)` uses the unrounded total; the reported `totalInchesRequired`
is the `toFixed(0)` value.  `isUniform = (breakdown.length === 1)`. -/
noncomputable def calculateRodsForProject (structures : List StructureGroup)
    (frontLegHeight panelLen rodLength : ℝ) : RodsResult :=
  let breakdown := structures.map (breakdownFor frontLegHeight panelLen)
  let totalInches := (structures.map (inchesForGroup frontLegHeight panelLen)).sum
  ⟨breakdown,
    ⟨(breakdown.map (fun b => b.frontLegsCount)).sum,
      (breakdown.map (fun b => b.rearLegsCount)).sum,
      (breakdown.map (fun b => b.hypoRodsCount)).sum,
      round0 totalInches,
      ⌈totalInches / rodLength⌉⟩,
    breakdown.length == 1⟩

/-! ### Cost aggregation (`computeCost`) -/

/-- The price/charge inputs of `computeCost`.  The source receives decimal
strings and parses them with fallbacks (`toNum`); they are modelled as
already-parsed numbers. -/
structure CostPrices (α : Type) where
  rodPrice : α
  basePlatePrice : α
  anchorBoltPrice : α
  angleFitterPrice : α
  normalBoltPrice : α
  uClampPrice : α
  serviceCharges : α
  installationCharges : α
  wastagePercent : α

/-- The `qty` block of `CostData`. -/
structure CostQty (α : Type) where
  inchesUsed : α
  structures : ℕ
  panels : ℕ
  basePlates : ℕ
  anchorBolts : ℕ
  angleFitters : ℕ
  normalBolts : ℕ
  uClamps : ℕ

/-- The `price` block of `CostData`. -/
structure CostUnitPrices (α : Type) where
  rodPerInch : α
  basePlate : α
  anchorBolt : α
  angleFitter : α
  normalBolt : α
  uClamp : α
  service : α
  installation : α
  wastagePct : α

/-- The `items` block of `CostData`. -/
structure CostItems (α : Type) where
  rodsByInches : α
  basePlates : α
  anchorBolts : α
  angleFitters : α
  normalBolts : α
  uClamps : α

/-- The result record of `computeCost`. -/
structure CostData (α : Type) where
  qty : CostQty α
  price : CostUnitPrices α
  items : CostItems α
  subtotal : α
  wastage : α
  total : α

/-- Embedding of `computeCost` from the costing-module variant with U-clamps and
installation charges (`HARDWARE_PER_STRUCTURE = {4, 16, 4, 24}`,
`UCLAMPS_PER_PANEL = 4`, `ROD_LENGTH = 164`).  `results` is modelled by its
two consumed parts: the structure list and the parsed `totalInchesRequired`
(`Number(inchesStr) || 0`).  Returns `none` exactly when no structure group
is present (the `!inchesStr || !hasStructures` guard; a computed results
object always carries a nonempty inches string). -/
def computeCost {α : Type} [LinearOrderedField α]
    (structures : List StructureGroup) (totalInchesRequired : α)
    (P : CostPrices α) : Option (CostData α) :=
  if structures.isEmpty then none
  else
    let inchesUsed := totalInchesRequired
    let nStructures := (structures.map (fun s => s.count)).sum
    let nPanels := (structures.map (fun s => s.count * s.panels)).sum
    let qty : CostQty α := ⟨inchesUsed, nStructures, nPanels,
      nStructures * 4, nStructures * 16, nStructures * 4, nStructures * 24,
      nPanels * 4⟩
    let rodPerInch := P.rodPrice / 164
    let price : CostUnitPrices α := ⟨rodPerInch, P.basePlatePrice, P.anchorBoltPrice,
      P.angleFitterPrice, P.normalBoltPrice, P.uClampPrice, P.serviceCharges,
      P.installationCharges, P.wastagePercent⟩
    let items : CostItems α := ⟨inchesUsed * rodPerInch,
      (qty.basePlates : α) * price.basePlate,
      (qty.anchorBolts : α) * price.anchorBolt,
      (qty.angleFitters : α) * price.angleFitter,
      (qty.normalBolts : α) * price.normalBolt,
      (qty.uClamps : α) * price.uClamp⟩
    let subtotal := items.rodsByInches + items.basePlates + items.anchorBolts +
      items.angleFitters + items.normalBolts + items.uClamps
    let wastage := subtotal * price.wastagePct / 100
    let total := subtotal + wastage + price.service + price.installation
    some ⟨qty, price, items, subtotal, wastage, total⟩

lemma round2_int {α : Type} [LinearOrderedField α] [FloorRing α] (z : ℤ) :
    round2 ((z : α)) = (z : α) := by
  rw [round2]
  have h : (100 : α) * (z : α) = ((100 * z : ℤ) : α) := by push_cast; ring
  rw [h, round_intCast]
  push_cast
  ring

/-- C5: for every results object with at least one structure group,
`computeCost` uses 4 base plates, 16 anchor bolts, 4 angle fitters and
24 normal bolts per structure, 4 U-clamps per panel, prices each line item
as quantity times unit price with the rod line equal to
`totalInchesRequired * (rodPricePerRod / 164)`, and returns
`subtotal = Σ line items`, `wastage = subtotal * wastagePercent / 100`, and
`total = subtotal + wastage + fabricationCharge + installationCharge`. -/
theorem C5_computeCost_formulas {α : Type} [LinearOrderedField α]
    (structures : List StructureGroup) (inches : α) (P : CostPrices α)
    (hne : structures ≠ []) :
    ∃ c : CostData α, computeCost structures inches P = some c ∧
      c.qty.structures = (structures.map (fun s => s.count)).sum ∧
      c.qty.panels = (structures.map (fun s => s.count * s.panels)).sum ∧
      c.qty.basePlates = c.qty.structures * 4 ∧
      c.qty.anchorBolts = c.qty.structures * 16 ∧
      c.qty.angleFitters = c.qty.structures * 4 ∧
      c.qty.normalBolts = c.qty.structures * 24 ∧
      c.qty.uClamps = c.qty.panels * 4 ∧
      c.price.rodPerInch = P.rodPrice / 164 ∧
      c.items.rodsByInches = inches * (P.rodPrice / 164) ∧
      c.items.basePlates = (c.qty.basePlates : α) * P.basePlatePrice ∧
      c.items.anchorBolts = (c.qty.anchorBolts : α) * P.anchorBoltPrice ∧
      c.items.angleFitters = (c.qty.angleFitters : α) * P.angleFitterPrice ∧
      c.items.normalBolts = (c.qty.normalBolts : α) * P.normalBoltPrice ∧
      c.items.uClamps = (c.qty.uClamps : α) * P.uClampPrice ∧
      c.subtotal = c.items.rodsByInches + c.items.basePlates + c.items.anchorBolts +
        c.items.angleFitters + c.items.normalBolts + c.items.uClamps ∧
      c.wastage = c.subtotal * P.wastagePercent / 100 ∧
      c.total = c.subtotal + c.wastage + P.serviceCharges + P.installationCharges := by
  obtain ⟨a, l, rfl⟩ : ∃ a l, structures = a :: l := by
    cases structures with
    | nil => exact absurd rfl hne
    | cons a l => exact ⟨a, l, rfl⟩
  exact ⟨_, rfl, rfl, rfl, rfl, rfl, rfl, rfl, rfl, rfl, rfl, rfl, rfl, rfl, rfl, rfl,
    rfl, rfl, rfl⟩

/-- Witness for C5 at a concrete results object and price configuration. -/
theorem C5_computeCost_formulas_witness :
    ([(⟨3, 2⟩ : StructureGroup)] ≠ []) ∧
    (∃ c : CostData ℚ, computeCost [(⟨3, 2⟩ : StructureGroup)] 450
        (CostPrices.mk 1000 150 20 150 15 45 1500 2000 15) = some c ∧
      c.qty.structures = ([(⟨3, 2⟩ : StructureGroup)].map (fun s => s.count)).sum ∧
      c.qty.panels = ([(⟨3, 2⟩ : StructureGroup)].map (fun s => s.count * s.panels)).sum ∧
      c.qty.basePlates = c.qty.structures * 4 ∧
      c.qty.anchorBolts = c.qty.structures * 16 ∧
      c.qty.angleFitters = c.qty.structures * 4 ∧
      c.qty.normalBolts = c.qty.structures * 24 ∧
      c.qty.uClamps = c.qty.panels * 4 ∧
      c.price.rodPerInch = (1000 : ℚ) / 164 ∧
      c.items.rodsByInches = (450 : ℚ) * ((1000 : ℚ) / 164) ∧
      c.items.basePlates = (c.qty.basePlates : ℚ) * 150 ∧
      c.items.anchorBolts = (c.qty.anchorBolts : ℚ) * 20 ∧
      c.items.angleFitters = (c.qty.angleFitters : ℚ) * 150 ∧
      c.items.normalBolts = (c.qty.normalBolts : ℚ) * 15 ∧
      c.items.uClamps = (c.qty.uClamps : ℚ) * 45 ∧
      c.subtotal = c.items.rodsByInches + c.items.basePlates + c.items.anchorBolts +
        c.items.angleFitters + c.items.normalBolts + c.items.uClamps ∧
      c.wastage = c.subtotal * 15 / 100 ∧
      c.total = c.subtotal + c.wastage + 1500 + 2000) :=
  ⟨by simp,
    C5_computeCost_formulas [(⟨3, 2⟩ : StructureGroup)] (450 : ℚ)
      (CostPrices.mk 1000 150 20 150 15 45 1500 2000 15) (by simp)⟩

/-- C6 (amended): per group the reported piece counts are
`frontLegsCount = rearLegsCount = hypoRodsCount = 2 * count`; the unrounded
inches total is `Σ (2count·frontLegHeight + 2count·rear + 2count·hypo)` with
`rear`/`hypo` the parsed 2-decimal leg strings; the *reported*
`totalInchesRequired` is that sum rounded via `toFixed(0)`;
`totalRodsNeeded = ceil(unrounded total / 164)`; and `isUniform` is true
exactly when the structure list has exactly one entry (not "one distinct
group"). -/
theorem C6_rod_totals (structures : List StructureGroup) (front panelLen : ℝ) :
    (calculateRodsForProject structures front panelLen 164).breakdown.map
        (fun b => (b.frontLegsCount, b.rearLegsCount, b.hypoRodsCount)) =
      structures.map (fun s => (2 * s.count, 2 * s.count, 2 * s.count)) ∧
    (∀ s : StructureGroup, inchesForGroup front panelLen s =
      ((2 * s.count : ℕ) : ℝ) * front +
        ((2 * s.count : ℕ) : ℝ) *
          (calculateLegsPerStructureHome front s.panels panelLen 19 5).rearLegHeight +
        ((2 * s.count : ℕ) : ℝ) *
          (calculateLegsPerStructureHome front s.panels panelLen 19 5).hypotenuseRodLength) ∧
    (calculateRodsForProject structures front panelLen 164).totals.totalInchesRequired =
      round0 ((structures.map (inchesForGroup front panelLen)).sum) ∧
    (calculateRodsForProject structures front panelLen 164).totals.totalRodsNeeded =
      ⌈(structures.map (inchesForGroup front panelLen)).sum / 164⌉ ∧
    ((calculateRodsForProject structures front panelLen 164).isUniform = true ↔
      structures.length = 1) := by
  refine ⟨?_, ?_, rfl, rfl, ?_⟩
  · rw [calculateRodsForProject]
    rw [List.map_map]
    rfl
  · intro s
    rfl
  · rw [calculateRodsForProject]
    simp [List.length_map]

lemma round0_ne_of_half_form (x : ℝ) (a : ℤ) (hx : x = 1 / 200 + (a : ℝ) / 50) :
    round0 x ≠ x := by
  intro h
  rw [round0] at h
  have hcast : ((200 * round x : ℤ) : ℝ) = ((1 + 4 * a : ℤ) : ℝ) := by
    push_cast
    rw [h, hx]
    ring
  have : (200 : ℤ) * round x = 1 + 4 * a := Int.cast_injective hcast
  omega

/-- C6 counterexample: at `structures = [{3,1},{3,1}]` the code's `isUniform`
is `false` although there is exactly one distinct structure group; and at
`structures = [{3,1}]`, `frontLegHeight = 1/400`, `panelLen = 45` the
reported `totalInchesRequired` differs from the exact sum of piece count
times piece length (it is the `toFixed(0)` rounding of that sum). -/
theorem C6_counterexample :
    (calculateRodsForProject [⟨3, 1⟩, ⟨3, 1⟩] 24 45 164).isUniform = false ∧
    ([(⟨3, 1⟩ : StructureGroup), ⟨3, 1⟩].dedup.length = 1) ∧
    (calculateRodsForProject [⟨3, 1⟩] (1 / 400) 45 164).totals.totalInchesRequired ≠
      ([(⟨3, 1⟩ : StructureGroup)].map (inchesForGroup (1 / 400) 45)).sum := by
  refine ⟨?_, ?_, ?_⟩
  · rw [calculateRodsForProject]
    simp [List.length_map]
  · decide
  · have hsum : ([(⟨3, 1⟩ : StructureGroup)].map (inchesForGroup (1 / 400) 45)).sum =
        1 / 200 +
          ((round (100 * ((1 / 400 : ℝ) + triangleHeightHome 45 5 3 19)) +
            round (100 * totalHypotenuseLen 45 5 3) : ℤ) : ℝ) / 50 := by
      simp only [List.map_cons, List.map_nil, List.sum_cons, List.sum_nil, add_zero]
      rw [inchesForGroup, calculateLegsPerStructureHome]
      simp only [round2]
      push_cast
      ring
    show round0 (([(⟨3, 1⟩ : StructureGroup)].map (inchesForGroup (1 / 400) 45)).sum) ≠ _
    exact round0_ne_of_half_form _ _ hsum

/-- C7 counterexample: with `totalPanels = 0` (and `maxPanelsPerRod = 3`)
the greedy distributor does *not* return an empty structure list: it returns
the one-element list `[{panels: 3, count: 0}]` (its `remainingPanels === 0`
branch is not filtered). -/
theorem C7_counterexample :
    smartDistributePanels 0 3 = [⟨3, 0⟩] ∧
      ([(⟨3, 0⟩ : StructureGroup)] ≠ ([] : List StructureGroup)) := by
  constructor
  · rw [smartDistributePanels]
    norm_num
  · simp

/-- C7 (amended): with `totalPanels = 0`, the balanced distributor returns an
empty list while the greedy one returns `[{panels: maxPanelsPerRod, count: 0}]`;
the downstream rod totals are all zero (`totalInchesRequired = 0`,
`totalRodsNeeded = 0`) and no error occurs, but the cost stage differs by
strategy: on the greedy output `computeCost` returns `subtotal = 0`, while on
the balanced (empty) output it returns `none` (its "no structures" guard). -/
theorem C7_zero_panels (maxP : ℕ) (front panelLen : ℝ) (P : CostPrices ℝ) :
    smartDistributePanels 0 maxP = [⟨maxP, 0⟩] ∧
    (∀ (α : Type) [LinearOrderedAddCommMonoid α], ∀ (pen : ℕ → α) (sp : α) (maxK : ℕ),
      distributePanelsBalancedCore 0 maxK pen sp = []) ∧
    (∀ panelWid : ℝ, distributePanelsBalanced 0 (maxP : ℤ) panelLen panelWid = []) ∧
    (calculateRodsForProject [⟨maxP, 0⟩] front panelLen 164).totals.totalInchesRequired = 0 ∧
    (calculateRodsForProject [⟨maxP, 0⟩] front panelLen 164).totals.totalRodsNeeded = 0 ∧
    ((computeCost [(⟨maxP, 0⟩ : StructureGroup)] (0 : ℝ) P).map (fun c => c.subtotal)) =
      some 0 ∧
    computeCost ([] : List StructureGroup) (0 : ℝ) P = none := by
  have hinch : inchesForGroup front panelLen ⟨maxP, 0⟩ = 0 := by
    rw [inchesForGroup]
    simp
  refine ⟨?_, ?_, ?_, ?_, ?_, ?_, rfl⟩
  · rw [smartDistributePanels]
    simp
  · intro α instα pen sp maxK
    rw [distributePanelsBalancedCore, reconstructSizes]
    simp [compressSizes]
  · intro panelWid
    rw [distributePanelsBalanced, distributePanelsBalancedCore, reconstructSizes]
    simp [compressSizes]
  · rw [calculateRodsForProject]
    simp only [List.map_cons, List.map_nil, List.sum_cons, List.sum_nil, hinch, add_zero]
    rw [round0, round_zero]
    simp
  · rw [calculateRodsForProject]
    simp only [List.map_cons, List.map_nil, List.sum_cons, List.sum_nil, hinch, add_zero]
    simp
  · rw [computeCost]
    simp only [List.isEmpty_cons, Bool.false_eq_true, if_false, Option.map_some]
    simp

/-- The per-panel-count leg record rebuilt from already-rounded leg values
`rear k` / `hypo k` (the parsed `toFixed(2)` strings); it contains nothing
derived from the exact reals. -/
noncomputable def roundedLegsFor (front : ℝ) (rear hypo : ℕ → ℝ) (k : ℕ) : LegSet :=
  ⟨2, 2, front, rear k, k, hypo k⟩

/-- The per-group unrounded inches recomputed from rounded leg values only
(same shape as `inchesForGroup`). -/
noncomputable def roundedInchesFor (front : ℝ) (rear hypo : ℕ → ℝ)
    (s : StructureGroup) : ℝ :=
  (((roundedLegsFor front rear hypo s.panels).totalFrontLegs * s.count : ℕ) : ℝ) * front +
    (((roundedLegsFor front rear hypo s.panels).totalRearLegs * s.count : ℕ) : ℝ) *
      (roundedLegsFor front rear hypo s.panels).rearLegHeight +
    ((2 * s.count : ℕ) : ℝ) * (roundedLegsFor front rear hypo s.panels).hypotenuseRodLength

/-- The per-group breakdown entry recomputed from rounded leg values only
(same shape as `breakdownFor`). -/
noncomputable def roundedBreakdownFor (front : ℝ) (rear hypo : ℕ → ℝ)
    (s : StructureGroup) : BreakdownEntry :=
  ⟨s.panels, s.count, roundedLegsFor front rear hypo s.panels,
    (roundedLegsFor front rear hypo s.panels).totalFrontLegs * s.count,
    (roundedLegsFor front rear hypo s.panels).totalRearLegs * s.count,
    2 * s.count, round0 (roundedInchesFor front rear hypo s)⟩

/-- Rod totals computed from already-rounded leg lengths only: the factoring
function exhibited for C10.  Its arguments are, per panel count, the parsed
2-decimal `rearLegHeight` and `hypotenuseRodLength` values; the body repeats
`calculateRodsForProject` with the leg record built from those values and
never sees the exact (pre-rounding) leg reals. -/
noncomputable def rodsFromRoundedLegs (structures : List StructureGroup) (front : ℝ)
    (rear hypo : ℕ → ℝ) (rodLength : ℝ) : RodsResult :=
  let breakdown := structures.map (roundedBreakdownFor front rear hypo)
  let totalInches := (structures.map (roundedInchesFor front rear hypo)).sum
  ⟨breakdown,
    ⟨(breakdown.map (fun b => b.frontLegsCount)).sum,
      (breakdown.map (fun b => b.rearLegsCount)).sum,
      (breakdown.map (fun b => b.hypoRodsCount)).sum,
      round0 totalInches,
      ⌈totalInches / rodLength⌉⟩,
    breakdown.length == 1⟩

lemma roundedInchesFor_congr (front : ℝ) (rear1 hypo1 rear2 hypo2 : ℕ → ℝ)
    (s : StructureGroup) (hr : rear1 s.panels = rear2 s.panels)
    (hh : hypo1 s.panels = hypo2 s.panels) :
    roundedInchesFor front rear1 hypo1 s = roundedInchesFor front rear2 hypo2 s := by
  simp only [roundedInchesFor, roundedLegsFor]
  rw [hr, hh]

lemma roundedBreakdownFor_congr (front : ℝ) (rear1 hypo1 rear2 hypo2 : ℕ → ℝ)
    (s : StructureGroup) (hr : rear1 s.panels = rear2 s.panels)
    (hh : hypo1 s.panels = hypo2 s.panels) :
    roundedBreakdownFor front rear1 hypo1 s = roundedBreakdownFor front rear2 hypo2 s := by
  simp only [roundedBreakdownFor, roundedLegsFor]
  rw [hr, hh, roundedInchesFor_congr front rear1 hypo1 rear2 hypo2 s hr hh]

/-- C10: derived leg lengths are rounded at component boundaries and the
rounded values, not the exact reals, feed all downstream results.
(a) `calculateLegsPerStructure` returns `rearLegHeight` and
`hypotenuseRodLength` as 2-decimal roundings; (b) `calculateRodsForProject`
factors through `rodsFromRoundedLegs`, a function receiving only those
rounded leg values (so every reported total, including the `toFixed(0)`
`totalInchesRequired`, is a function of the 2-decimal-rounded leg lengths);
(c) that factoring function depends only on the rounded values at the panel
counts actually present, so any two leg-value assignments agreeing there —
in particular exact reals differing while their roundings agree — give
identical results; (d) `computeCost` consumes the factored (rounded)
`totalInchesRequired`. -/
theorem C10_rounded_pipeline (structures : List StructureGroup)
    (front panelLen : ℝ) (P : CostPrices ℝ) :
    (∀ k : ℕ,
      (calculateLegsPerStructureHome front k panelLen 19 5).rearLegHeight =
        round2 (front + triangleHeightHome panelLen 5 k 19) ∧
      (calculateLegsPerStructureHome front k panelLen 19 5).hypotenuseRodLength =
        round2 (totalHypotenuseLen panelLen 5 k)) ∧
    calculateRodsForProject structures front panelLen 164 =
      rodsFromRoundedLegs structures front
        (fun k => round2 (front + triangleHeightHome panelLen 5 k 19))
        (fun k => round2 (totalHypotenuseLen panelLen 5 k)) 164 ∧
    (∀ rear1 hypo1 rear2 hypo2 : ℕ → ℝ,
      (∀ s ∈ structures, rear1 s.panels = rear2 s.panels ∧
        hypo1 s.panels = hypo2 s.panels) →
      rodsFromRoundedLegs structures front rear1 hypo1 164 =
        rodsFromRoundedLegs structures front rear2 hypo2 164) ∧
    computeCost structures
        (calculateRodsForProject structures front panelLen 164).totals.totalInchesRequired
        P =
      computeCost structures
        (rodsFromRoundedLegs structures front
          (fun k => round2 (front + triangleHeightHome panelLen 5 k 19))
          (fun k => round2 (totalHypotenuseLen panelLen 5 k))
          164).totals.totalInchesRequired
        P := by
  have hfact : calculateRodsForProject structures front panelLen 164 =
      rodsFromRoundedLegs structures front
        (fun k => round2 (front + triangleHeightHome panelLen 5 k 19))
        (fun k => round2 (totalHypotenuseLen panelLen 5 k)) 164 := rfl
  refine ⟨fun k => ⟨rfl, rfl⟩, hfact, ?_, by rw [hfact]⟩
  intro rear1 hypo1 rear2 hypo2 hagree
  have hbreak : structures.map (roundedBreakdownFor front rear1 hypo1) =
      structures.map (roundedBreakdownFor front rear2 hypo2) :=
    List.map_congr_left (fun s hs =>
      roundedBreakdownFor_congr front rear1 hypo1 rear2 hypo2 s
        (hagree s hs).1 (hagree s hs).2)
  have hinches : structures.map (roundedInchesFor front rear1 hypo1) =
      structures.map (roundedInchesFor front rear2 hypo2) :=
    List.map_congr_left (fun s hs =>
      roundedInchesFor_congr front rear1 hypo1 rear2 hypo2 s
        (hagree s hs).1 (hagree s hs).2)
  rw [rodsFromRoundedLegs, rodsFromRoundedLegs, hbreak, hinches]

/-- Witness for C10: the congruence part applied at `structures = [{3,1}]`
with two genuinely different leg-value assignments (`fun k => k` versus a
function that is 0 away from `k = 3`) that agree only at the panel count 3
actually present — the hypothesis is satisfied non-reflexively. -/
theorem C10_rounded_pipeline_witness :
    (∀ s ∈ [(⟨3, 1⟩ : StructureGroup)],
      (fun k : ℕ => (k : ℝ)) s.panels =
        (fun k : ℕ => if k = 3 then (3 : ℝ) else 0) s.panels ∧
      (fun k : ℕ => 2 * (k : ℝ)) s.panels =
        (fun k : ℕ => if k = 3 then (6 : ℝ) else 1) s.panels) ∧
    rodsFromRoundedLegs [⟨3, 1⟩] 24 (fun k => (k : ℝ)) (fun k => 2 * (k : ℝ)) 164 =
      rodsFromRoundedLegs [⟨3, 1⟩] 24 (fun k => if k = 3 then (3 : ℝ) else 0)
        (fun k => if k = 3 then (6 : ℝ) else 1) 164 :=
  ⟨by
    intro s hs
    rw [List.mem_singleton] at hs
    subst hs
    norm_num,
    (C10_rounded_pipeline [⟨3, 1⟩] 24 45
        (CostPrices.mk 1000 150 20 150 15 45 1500 2000 15)).2.2.1
      (fun k => (k : ℝ)) (fun k => 2 * (k : ℝ))
      (fun k => if k = 3 then (3 : ℝ) else 0) (fun k => if k = 3 then (6 : ℝ) else 1)
      (by
        intro s hs
        rw [List.mem_singleton] at hs
        subst hs
        norm_num)⟩

/-! ### Cutting-stock planner (`buildCutPlanFFD`) -/

/-- A required cut piece `{type, len}`. -/
structure CutPiece where
  type : String
  len : ℚ
deriving DecidableEq

/-- An open rod during packing: `{cuts, used}`. -/
structure OpenRod where
  cuts : List CutPiece
  used : ℚ
deriving DecidableEq

/-- A finished rod plan `{cuts, used, waste}`; `waste` is reported as
`Number((rodLen - used).toFixed(2))`. -/
structure RodPlan where
  cuts : List CutPiece
  used : ℚ
  waste : ℚ
deriving DecidableEq

/-- The float tolerance `1e-9` from `rod.used + needed <= rodLen + 1e-9`. -/
def ffdTol : ℚ := 1 / 1000000000

/-- Scan the open rods in creation order and place the piece into the first
rod where `rod.used + (piece.len + (rod.cuts.length > 0 ? kerf : 0)) <=
rodLen + 1e-9`; `none` if it fits in none of them. -/
def tryPlace (piece : CutPiece) (rodLen kerf : ℚ) : List OpenRod → Option (List OpenRod)
  | [] => none
  | rod :: rest =>
      let extraKerf := if 0 < rod.cuts.length then kerf else 0
      let needed := piece.len + extraKerf
      if rod.used + needed ≤ rodLen + ffdTol then
        some (OpenRod.mk (rod.cuts ++ [piece]) (rod.used + needed) :: rest)
      else
        (tryPlace piece rodLen kerf rest).map (fun rods => rod :: rods)

/-- The first-fit packing loop of `buildCutPlanFFD`: each piece goes into the
first fitting rod, or opens a new rod `{cuts: [piece], used: piece.len}`. -/
def placePieces (rodLen kerf : ℚ) (pieces : List CutPiece) : List OpenRod :=
  pieces.foldl
    (fun rods piece =>
      match tryPlace piece rodLen kerf rods with
      | some rods2 => rods2
      | none => rods ++ [OpenRod.mk [piece] piece.len])
    []

/-- Embedding of `buildCutPlanFFD(pieces, rodLen, kerf)` from `HomeClient.tsx`: sort the
pieces descending by length (`sort((a, b) => b.len - a.len)`), place each by
first-fit, then report `waste = Number((rodLen - r.used).toFixed(2))`. -/
def buildCutPlanFFD (pieces : List CutPiece) (rodLen kerf : ℚ) : List RodPlan :=
  (placePieces rodLen kerf (pieces.mergeSort (fun a b => decide (b.len ≤ a.len)))).map
    (fun r => RodPlan.mk r.cuts r.used (round2 (rodLen - r.used)))

/-- Packing invariant: the accounted `used` length is the cut lengths plus
one kerf per cut after the first, it respects the rod length up to the float
tolerance, and an open rod is never empty. -/
def RodInv (rodLen kerf : ℚ) (r : OpenRod) : Prop :=
  r.used = (r.cuts.map (fun c => c.len)).sum + kerf * ((r.cuts.length - 1 : ℕ) : ℚ) ∧
  r.used ≤ rodLen + ffdTol ∧
  0 < r.cuts.length

lemma tryPlace_inv (piece : CutPiece) (rodLen kerf : ℚ) :
    ∀ (rods rods2 : List OpenRod), (∀ r ∈ rods, RodInv rodLen kerf r) →
      tryPlace piece rodLen kerf rods = some rods2 →
      ∀ r ∈ rods2, RodInv rodLen kerf r := by
  intro rods
  induction rods with
  | nil => intro rods2 _ h; cases h
  | cons rod rest ih =>
      intro rods2 hinv h
      rw [tryPlace] at h
      by_cases hfits : rod.used + (piece.len + (if 0 < rod.cuts.length then kerf else 0)) ≤
          rodLen + ffdTol
      · rw [if_pos hfits] at h
        obtain ⟨hused, hle, hpos⟩ := hinv rod (List.mem_cons_self rod rest)
        injection h with h
        subst h
        intro r hr
        rcases List.mem_cons.mp hr with rfl | hr
        · refine ⟨?_, ?_, ?_⟩
          · rw [if_pos hpos]
            simp only [List.map_append, List.sum_append, List.length_append,
              List.map_cons, List.sum_cons, List.map_nil, List.sum_nil,
              List.length_cons, List.length_nil]
            rw [hused]
            have hlen : ((rod.cuts.length + 1 - 1 : ℕ) : ℚ) =
                ((rod.cuts.length - 1 : ℕ) : ℚ) + 1 := by
              have h1 : 1 ≤ rod.cuts.length := hpos
              have h2 : rod.cuts.length + 1 - 1 = (rod.cuts.length - 1) + 1 := by omega
              rw [h2]
              push_cast
              ring
            rw [hlen]
            ring
          · rw [if_pos hpos] at hfits
            rw [if_pos hpos]
            exact hfits
          · rw [List.length_append]
            omega
        · exact hinv r (List.mem_cons_of_mem _ hr)
      · rw [if_neg hfits] at h
        cases htp : tryPlace piece rodLen kerf rest with
        | none => rw [htp] at h; cases h
        | some rods3 =>
            rw [htp] at h
            simp only [Option.map_some'] at h
            injection h with h
            subst h
            intro r hr
            rcases List.mem_cons.mp hr with rfl | hr
            · exact hinv r (List.mem_cons_self r rest)
            · exact ih rods3 (fun q hq => hinv q (List.mem_cons_of_mem _ hq)) htp r hr

lemma placePieces_fold_inv (rodLen kerf : ℚ) :
    ∀ (pieces : List CutPiece) (rods : List OpenRod),
      (∀ p ∈ pieces, p.len ≤ rodLen) → (∀ r ∈ rods, RodInv rodLen kerf r) →
      ∀ r ∈ pieces.foldl
        (fun rods piece =>
          match tryPlace piece rodLen kerf rods with
          | some rods2 => rods2
          | none => rods ++ [OpenRod.mk [piece] piece.len]) rods,
        RodInv rodLen kerf r := by
  intro pieces
  induction pieces with
  | nil => intro rods _ hr; exact hr
  | cons p ps ih =>
      intro rods hp hr
      rw [List.foldl_cons]
      apply ih
      · intro q hq
        exact hp q (List.mem_cons_of_mem _ hq)
      · dsimp only
        cases htp : tryPlace p rodLen kerf rods with
        | some rods2 =>
            exact tryPlace_inv p rodLen kerf rods rods2 hr htp
        | none =>
            intro r hrm
            rcases List.mem_append.mp hrm with hrm | hrm
            · exact hr r hrm
            · rcases List.mem_singleton.mp hrm with rfl
              refine ⟨by simp, ?_, by simp⟩
              have hple : p.len ≤ rodLen := hp p (List.mem_cons_self p ps)
              have htolpos : (0 : ℚ) ≤ ffdTol := by rw [ffdTol]; norm_num
              show p.len ≤ rodLen + ffdTol
              linarith

/-- C4 (amended): provided every piece length is at most `rodLength` (and
`kerf ≥ 0`), every `RodPlan` produced by `buildCutPlanFFD` has a used length
equal to the sum of its cut lengths plus one kerf per cut after the first,
not exceeding `rodLength` within the `1e-9` float tolerance, and a reported
waste equal to `(rodLength - usedLength).toFixed(2)`, which is `≥ 0`; an
empty piece list produces an empty plan with zero total waste. -/
theorem C4_cutplan_safety (pieces : List CutPiece) (rodLen kerf : ℚ)
    (hkerf : 0 ≤ kerf) (hfit : ∀ p ∈ pieces, p.len ≤ rodLen) :
    (∀ r ∈ buildCutPlanFFD pieces rodLen kerf,
      r.used = (r.cuts.map (fun c => c.len)).sum + kerf * ((r.cuts.length - 1 : ℕ) : ℚ) ∧
      r.used ≤ rodLen + ffdTol ∧
      r.waste = round2 (rodLen - r.used) ∧
      0 ≤ r.waste) ∧
    buildCutPlanFFD [] rodLen kerf = [] ∧
    ((buildCutPlanFFD [] rodLen kerf).map (fun r => r.waste)).sum = 0 := by
  have hnil : buildCutPlanFFD [] rodLen kerf = [] := by
    rw [buildCutPlanFFD, List.mergeSort_nil]
    rfl
  refine ⟨?_, hnil, by rw [hnil]; rfl⟩
  intro r hr
  rw [buildCutPlanFFD] at hr
  rcases List.mem_map.mp hr with ⟨q, hq, rfl⟩
  have hsorted : ∀ p ∈ pieces.mergeSort (fun a b => decide (b.len ≤ a.len)),
      p.len ≤ rodLen := fun p hp => hfit p (List.mem_mergeSort.mp hp)
  have hinv := placePieces_fold_inv rodLen kerf
    (pieces.mergeSort (fun a b => decide (b.len ≤ a.len))) [] hsorted
    (by intro r hr; cases hr) q hq
  obtain ⟨hused, hle, _⟩ := hinv
  refine ⟨hused, hle, rfl, ?_⟩
  show (0 : ℚ) ≤ round2 (rodLen - q.used)
  rw [round2]
  have h100 : (-(1 / 10000000) : ℚ) ≤ 100 * (rodLen - q.used) := by
    rw [ffdTol] at hle
    linarith
  have hfloor : (0 : ℤ) ≤ round (100 * (rodLen - q.used)) := by
    rw [round_eq]
    rw [Int.le_floor]
    push_cast
    linarith
  positivity

/-- C4 counterexample: a single piece longer than the rod (`len = 200`,
`rodLength = 164`, `kerf = 0.125`) is packed by opening a new rod whose used
length `200` exceeds `rodLength + 1e-9` and whose reported waste is
`-36 < 0`. -/
theorem C4_counterexample :
    buildCutPlanFFD [⟨"Rear", 200⟩] 164 (1 / 8) =
      [⟨[⟨"Rear", 200⟩], 200, -36⟩] ∧
    ¬ ((200 : ℚ) ≤ 164 + ffdTol) ∧ ((-36 : ℚ) < 0) := by
  refine ⟨?_, by rw [ffdTol]; norm_num, by norm_num⟩
  rw [buildCutPlanFFD, List.mergeSort_singleton]
  have hplace : placePieces 164 (1 / 8) [⟨"Rear", 200⟩] =
      [OpenRod.mk [⟨"Rear", 200⟩] 200] := rfl
  rw [hplace]
  simp only [List.map_cons, List.map_nil]
  have hneg : (164 : ℚ) - (OpenRod.mk [(⟨"Rear", 200⟩ : CutPiece)] 200).used =
      ((-36 : ℤ) : ℚ) := by norm_num
  rw [hneg, round2_int]
  norm_num

/-- Witness for C4 at one 24-inch piece on a 164-inch rod with kerf 0.125. -/
theorem C4_cutplan_safety_witness :
    ((0 : ℚ) ≤ 1 / 8 ∧ ∀ p ∈ [CutPiece.mk "Front" 24], p.len ≤ (164 : ℚ)) ∧
    ((∀ r ∈ buildCutPlanFFD [CutPiece.mk "Front" 24] 164 (1 / 8),
      r.used = (r.cuts.map (fun c => c.len)).sum + (1 / 8) * ((r.cuts.length - 1 : ℕ) : ℚ) ∧
      r.used ≤ 164 + ffdTol ∧
      r.waste = round2 (164 - r.used) ∧
      0 ≤ r.waste) ∧
    buildCutPlanFFD [] 164 (1 / 8 : ℚ) = [] ∧
    ((buildCutPlanFFD [] 164 (1 / 8 : ℚ)).map (fun r => r.waste)).sum = 0) :=
  ⟨⟨by norm_num, by decide⟩,
    C4_cutplan_safety [CutPiece.mk "Front" 24] 164 (1 / 8) (by norm_num) (by decide)⟩

/-! ### Inventory reconciliation (`consumeInventory`) -/

/-- A required piece `{len, qty}` (after processing, `qty` holds `needed`). -/
structure ReqItem where
  len : ℚ
  qty : ℚ
deriving DecidableEq

/-- An inventory piece; only the two fields `consumeInventory` reads and
writes (`len`, `qty`) are modelled — ids/notes are copied through unchanged
by the source's object spreads. -/
structure InvPiece where
  len : ℚ
  qty : ℚ
deriving DecidableEq

/-- An audit entry `{len, qty: take, fromLen}`. -/
structure UsedEntry where
  len : ℚ
  qty : ℚ
  fromLen : ℚ
deriving DecidableEq

/-- Default piece for `List.getD`; candidate indices are always in range, so
it is never actually selected. -/
def noPiece : InvPiece := ⟨0, 0⟩

lemma getD_set_same (l : List InvPiece) (i : ℕ) (a : InvPiece) (h : i < l.length) :
    (l.set i a).getD i noPiece = a := by
  simp [List.getD, List.getElem?_set_self, h]

lemma getD_set_other (l : List InvPiece) (i j : ℕ) (a : InvPiece) (h : i ≠ j) :
    (l.set i a).getD j noPiece = l.getD j noPiece := by
  simp [List.getD, List.getElem?_set_ne h]

lemma getD_mem_of_lt (l : List InvPiece) (n : ℕ) (h : n < l.length) :
    l.getD n noPiece ∈ l := by
  rw [List.getD_eq_getElem l noPiece h]
  exact List.getElem_mem h

/-- The candidate list for one required length: indices of inventory pieces
within `tolerance` of `rlen` with positive quantity, sorted by closeness
(the source builds `{p, idx, diff}` records, filters
`diff <= tolerance && qty > 0` and stable-sorts ascending by `diff`; the
records are modelled by their indices). -/
def candIdxs (inv : List InvPiece) (rlen tol : ℚ) : List ℕ :=
  ((List.range inv.length).filter
      (fun i => |(inv.getD i noPiece).len - rlen| ≤ tol ∧ 0 < (inv.getD i noPiece).qty)).mergeSort
    (fun i j =>
      decide (|(inv.getD i noPiece).len - rlen| ≤ |(inv.getD j noPiece).len - rlen|))

lemma mem_candIdxs (inv : List InvPiece) (rlen tol : ℚ) (i : ℕ) :
    i ∈ candIdxs inv rlen tol ↔
      i < inv.length ∧ |(inv.getD i noPiece).len - rlen| ≤ tol ∧
        0 < (inv.getD i noPiece).qty := by
  rw [candIdxs, List.mem_mergeSort, List.mem_filter, List.mem_range]
  simp

/-- The inner consumption loop over the candidate list
(`for (const c of candidates) { if (r.needed <= 0) break;
const take = Math.min(r.needed, c.p.qty); if (take <= 0) continue;
c.p.qty -= take; r.needed -= take; used.push({len: r.len, qty: take,
fromLen: c.p.len}); }`). -/
def consumeOne (inv : List InvPiece) (rlen : ℚ) (needed : ℚ) :
    List ℕ → List InvPiece × ℚ × List UsedEntry
  | [] => (inv, needed, [])
  | idx :: rest =>
      if needed ≤ 0 then (inv, needed, [])
      else
        let p := inv.getD idx noPiece
        let take := min needed p.qty
        if take ≤ 0 then consumeOne inv rlen needed rest
        else
          let res := consumeOne (inv.set idx ⟨p.len, p.qty - take⟩) rlen (needed - take) rest
          (res.1, res.2.1, UsedEntry.mk rlen take p.len :: res.2.2)

/-- The outer loop over required entries (`for (const r of req)`), threading
the mutated inventory copy; returns the `needed`-annotated requirement list,
the final inventory and the audit trail. -/
def consumeLoop (tol : ℚ) : List ReqItem → List InvPiece →
    List ReqItem × List InvPiece × List UsedEntry
  | [], inv => ([], inv, [])
  | r :: rs, inv =>
      if r.qty ≤ 0 then
        let res := consumeLoop tol rs inv
        (r :: res.1, res.2.1, res.2.2)
      else
        let one := consumeOne inv r.len r.qty (candIdxs inv r.len tol)
        let res := consumeLoop tol rs one.1
        (ReqItem.mk r.len one.2.1 :: res.1, res.2.1, one.2.2 ++ res.2.2)

/-- Embedding of `consumeInventory(requiredPieces, inventoryPieces, tolerance = 0.25)`
from the pieces-inventory module:
`remainingRequired = req.map(({len, needed}) => ({len, qty: needed})).filter(x => x.qty > 0)`,
`remainingInventory = inv.filter(p => p.qty > 0)`. -/
def consumeInventory (required : List ReqItem) (inventory : List InvPiece) (tol : ℚ) :
    List ReqItem × List InvPiece × List UsedEntry :=
  let res := consumeLoop tol required inventory
  (res.1.filter (fun x => 0 < x.qty), res.2.1.filter (fun p => 0 < p.qty), res.2.2)

lemma consumeOne_length (rlen : ℚ) :
    ∀ (cands : List ℕ) (inv : List InvPiece) (needed : ℚ),
      (consumeOne inv rlen needed cands).1.length = inv.length := by
  intro cands
  induction cands with
  | nil => intro inv needed; rfl
  | cons idx rest ih =>
      intro inv needed
      rw [consumeOne]
      by_cases h0 : needed ≤ 0
      · rw [if_pos h0]
      · rw [if_neg h0]
        dsimp only
        by_cases ht : min needed (inv.getD idx noPiece).qty ≤ 0
        · rw [if_pos ht]
          exact ih inv needed
        · rw [if_neg ht]
          dsimp only
          rw [ih, List.length_set]

lemma consumeOne_len_eq (rlen : ℚ) :
    ∀ (cands : List ℕ) (inv : List InvPiece) (needed : ℚ) (j : ℕ),
      ((consumeOne inv rlen needed cands).1.getD j noPiece).len =
        (inv.getD j noPiece).len := by
  intro cands
  induction cands with
  | nil => intro inv needed j; rfl
  | cons idx rest ih =>
      intro inv needed j
      rw [consumeOne]
      by_cases h0 : needed ≤ 0
      · rw [if_pos h0]
      · rw [if_neg h0]
        dsimp only
        by_cases ht : min needed (inv.getD idx noPiece).qty ≤ 0
        · rw [if_pos ht]
          exact ih inv needed j
        · rw [if_neg ht]
          dsimp only
          rw [ih]
          by_cases hij : idx = j
          · subst hij
            by_cases hlt : idx < inv.length
            · rw [getD_set_same _ _ _ hlt]
            · rw [List.set_eq_of_length_le (by omega)]
          · rw [getD_set_other _ _ _ _ hij]

lemma consumeOne_qty_mono (rlen : ℚ) :
    ∀ (cands : List ℕ) (inv : List InvPiece) (needed : ℚ) (j : ℕ),
      ((consumeOne inv rlen needed cands).1.getD j noPiece).qty ≤
        (inv.getD j noPiece).qty := by
  intro cands
  induction cands with
  | nil => intro inv needed j; exact le_rfl
  | cons idx rest ih =>
      intro inv needed j
      rw [consumeOne]
      by_cases h0 : needed ≤ 0
      · rw [if_pos h0]
      · rw [if_neg h0]
        dsimp only
        by_cases ht : min needed (inv.getD idx noPiece).qty ≤ 0
        · rw [if_pos ht]
          exact ih inv needed j
        · rw [if_neg ht]
          dsimp only
          refine le_trans (ih _ _ j) ?_
          by_cases hij : idx = j
          · subst hij
            by_cases hlt : idx < inv.length
            · rw [getD_set_same _ _ _ hlt]
              have : 0 < min needed (inv.getD idx noPiece).qty := by linarith
              dsimp only
              linarith
            · rw [List.set_eq_of_length_le (by omega)]
          · rw [getD_set_other _ _ _ _ hij]

lemma consumeOne_needed_mono (rlen : ℚ) :
    ∀ (cands : List ℕ) (inv : List InvPiece) (needed : ℚ),
      (consumeOne inv rlen needed cands).2.1 ≤ needed := by
  intro cands
  induction cands with
  | nil => intro inv needed; exact le_rfl
  | cons idx rest ih =>
      intro inv needed
      rw [consumeOne]
      by_cases h0 : needed ≤ 0
      · rw [if_pos h0]
      · rw [if_neg h0]
        dsimp only
        by_cases ht : min needed (inv.getD idx noPiece).qty ≤ 0
        · rw [if_pos ht]
          exact ih inv needed
        · rw [if_neg ht]
          dsimp only
          refine le_trans (ih _ _) ?_
          linarith [lt_of_not_le ht]

lemma consumeOne_exhausts (rlen : ℚ) :
    ∀ (cands : List ℕ) (inv : List InvPiece) (needed : ℚ),
      0 < (consumeOne inv rlen needed cands).2.1 →
      ∀ i ∈ cands, ((consumeOne inv rlen needed cands).1.getD i noPiece).qty ≤ 0 := by
  intro cands
  induction cands with
  | nil => intro inv needed _ i hi; cases hi
  | cons idx rest ih =>
      intro inv needed hpos i hi
      rw [consumeOne] at hpos ⊢
      by_cases h0 : needed ≤ 0
      · rw [if_pos h0] at hpos
        dsimp only at hpos
        linarith
      · rw [if_neg h0] at hpos ⊢
        dsimp only at hpos ⊢
        by_cases ht : min needed (inv.getD idx noPiece).qty ≤ 0
        · rw [if_pos ht] at hpos ⊢
          rcases List.mem_cons.mp hi with rfl | hi
          · have hq : (inv.getD i noPiece).qty ≤ 0 := by
              rcases min_le_iff.mp ht with h | h
              · linarith [lt_of_not_le h0]
              · exact h
            exact le_trans (consumeOne_qty_mono rlen rest inv needed i) hq
          · exact ih inv needed hpos i hi
        · rw [if_neg ht] at hpos ⊢
          dsimp only at hpos ⊢
          have htake : 0 < min needed (inv.getD idx noPiece).qty := lt_of_not_le ht
          have hfull : min needed (inv.getD idx noPiece).qty =
              (inv.getD idx noPiece).qty := by
            rcases le_total needed (inv.getD idx noPiece).qty with hle | hle
            · exfalso
              have hmin : min needed (inv.getD idx noPiece).qty = needed :=
                min_eq_left hle
              rw [hmin] at hpos
              have := consumeOne_needed_mono rlen rest
                (inv.set idx ⟨(inv.getD idx noPiece).len,
                  (inv.getD idx noPiece).qty - needed⟩) (needed - needed)
              rw [sub_self] at this hpos
              linarith
            · exact min_eq_right hle
          rcases List.mem_cons.mp hi with rfl | hi
          · refine le_trans (consumeOne_qty_mono rlen rest _ _ i) ?_
            by_cases hlt : i < inv.length
            · rw [getD_set_same _ _ _ hlt]
              rw [hfull]
              dsimp only
              linarith
            · rw [List.set_eq_of_length_le (by omega)]
              have hq0 : (inv.getD i noPiece).qty = noPiece.qty := by
                rw [List.getD_eq_default]
                omega
              rw [hq0]
              exact le_rfl
          · exact ih _ _ hpos i hi

lemma consumeLoop_length (tol : ℚ) :
    ∀ (req : List ReqItem) (inv : List InvPiece),
      (consumeLoop tol req inv).2.1.length = inv.length := by
  intro req
  induction req with
  | nil => intro inv; rfl
  | cons r rs ih =>
      intro inv
      rw [consumeLoop]
      by_cases h0 : r.qty ≤ 0
      · rw [if_pos h0]
        exact ih inv
      · rw [if_neg h0]
        dsimp only
        rw [ih, consumeOne_length]

lemma consumeLoop_len_eq (tol : ℚ) :
    ∀ (req : List ReqItem) (inv : List InvPiece) (j : ℕ),
      ((consumeLoop tol req inv).2.1.getD j noPiece).len = (inv.getD j noPiece).len := by
  intro req
  induction req with
  | nil => intro inv j; rfl
  | cons r rs ih =>
      intro inv j
      rw [consumeLoop]
      by_cases h0 : r.qty ≤ 0
      · rw [if_pos h0]
        exact ih inv j
      · rw [if_neg h0]
        dsimp only
        rw [ih, consumeOne_len_eq]

lemma consumeLoop_qty_mono (tol : ℚ) :
    ∀ (req : List ReqItem) (inv : List InvPiece) (j : ℕ),
      ((consumeLoop tol req inv).2.1.getD j noPiece).qty ≤ (inv.getD j noPiece).qty := by
  intro req
  induction req with
  | nil => intro inv j; exact le_rfl
  | cons r rs ih =>
      intro inv j
      rw [consumeLoop]
      by_cases h0 : r.qty ≤ 0
      · rw [if_pos h0]
        exact ih inv j
      · rw [if_neg h0]
        dsimp only
        exact le_trans (ih _ j) (consumeOne_qty_mono r.len _ inv r.qty j)

lemma consumeLoop_leftover (tol : ℚ) :
    ∀ (req : List ReqItem) (inv : List InvPiece),
      ∀ x ∈ (consumeLoop tol req inv).1, 0 < x.qty →
      ∀ j, j < inv.length →
        |((consumeLoop tol req inv).2.1.getD j noPiece).len - x.len| ≤ tol →
        ((consumeLoop tol req inv).2.1.getD j noPiece).qty ≤ 0 := by
  intro req
  induction req with
  | nil => intro inv x hx; cases hx
  | cons r rs ih =>
      intro inv x hx hxq j hj htol
      rw [consumeLoop] at hx htol ⊢
      by_cases h0 : r.qty ≤ 0
      · rw [if_pos h0] at hx htol ⊢
        dsimp only at hx htol ⊢
        rcases List.mem_cons.mp hx with rfl | hx
        · exact absurd hxq (by linarith)
        · exact ih inv x hx hxq j hj htol
      · rw [if_neg h0] at hx htol ⊢
        dsimp only at hx htol ⊢
        rcases List.mem_cons.mp hx with rfl | hx
        · -- x = ⟨r.len, needed⟩ with positive leftover needed
          dsimp only at hxq
          have hone := consumeOne_exhausts r.len (candIdxs inv r.len tol) inv r.qty hxq
          have hlen1 : ((consumeOne inv r.len r.qty (candIdxs inv r.len tol)).1.getD j
              noPiece).len = (inv.getD j noPiece).len := consumeOne_len_eq r.len _ inv r.qty j
          have hlen2 : (((consumeLoop tol rs
              (consumeOne inv r.len r.qty (candIdxs inv r.len tol)).1).2.1.getD j
              noPiece)).len = (inv.getD j noPiece).len := by
            rw [consumeLoop_len_eq, hlen1]
          rw [hlen2] at htol
          by_cases hcand : j ∈ candIdxs inv r.len tol
          · exact le_trans (consumeLoop_qty_mono tol rs _ j) (hone j hcand)
          · rw [mem_candIdxs] at hcand
            push_neg at hcand
            have hq0 : (inv.getD j noPiece).qty ≤ 0 := hcand hj htol
            exact le_trans (consumeLoop_qty_mono tol rs _ j)
              (le_trans (consumeOne_qty_mono r.len _ inv r.qty j) hq0)
        · have hj2 : j < (consumeOne inv r.len r.qty (candIdxs inv r.len tol)).1.length := by
            rw [consumeOne_length]
            exact hj
          exact ih _ x hx hxq j hj2 htol

lemma consumeLoop_noop (tol : ℚ) :
    ∀ (req : List ReqItem) (inv : List InvPiece),
      (∀ r ∈ req, ∀ j, j < inv.length →
        ¬(|(inv.getD j noPiece).len - r.len| ≤ tol ∧ 0 < (inv.getD j noPiece).qty)) →
      consumeLoop tol req inv = (req, inv, []) := by
  intro req
  induction req with
  | nil => intro inv _; rfl
  | cons r rs ih =>
      intro inv hno
      rw [consumeLoop]
      have hcand : candIdxs inv r.len tol = [] := by
        rw [List.eq_nil_iff_forall_not_mem]
        intro i hi
        rw [mem_candIdxs] at hi
        exact hno r (List.mem_cons_self r rs) i hi.1 ⟨hi.2.1, hi.2.2⟩
      have hrest := ih inv (fun q hq => hno q (List.mem_cons_of_mem _ hq))
      by_cases h0 : r.qty ≤ 0
      · rw [if_pos h0, hrest]
      · rw [if_neg h0]
        dsimp only
        rw [hcand]
        simp only [consumeOne]
        rw [hrest]
        rfl

lemma consumeLoop_unmatched (tol : ℚ) :
    ∀ (req : List ReqItem) (inv : List InvPiece) (r : ReqItem), r ∈ req →
      (∀ j, j < inv.length → |(inv.getD j noPiece).len - r.len| ≤ tol →
        (inv.getD j noPiece).qty ≤ 0) →
      ReqItem.mk r.len r.qty ∈ (consumeLoop tol req inv).1 := by
  intro req
  induction req with
  | nil => intro inv r hr; cases hr
  | cons r0 rs ih =>
      intro inv r hr hno
      rw [consumeLoop]
      rcases List.mem_cons.mp hr with rfl | hr
      · by_cases h0 : r.qty ≤ 0
        · rw [if_pos h0]
          exact List.mem_cons_self _ _
        · rw [if_neg h0]
          dsimp only
          have hcand : candIdxs inv r.len tol = [] := by
            rw [List.eq_nil_iff_forall_not_mem]
            intro i hi
            rw [mem_candIdxs] at hi
            exact absurd hi.2.2 (by linarith [hno i hi.1 hi.2.1])
          rw [hcand]
          exact List.mem_cons_self _ _
      · by_cases h0 : r0.qty ≤ 0
        · rw [if_pos h0]
          exact List.mem_cons_of_mem _ (ih inv r hr hno)
        · rw [if_neg h0]
          dsimp only
          refine List.mem_cons_of_mem _ (ih _ r hr ?_)
          intro j hj htol
          have hjlen : j < inv.length := by
            rw [consumeOne_length] at hj
            exact hj
          rw [consumeOne_len_eq] at htol
          exact le_trans (consumeOne_qty_mono r0.len _ inv r0.qty j) (hno j hjlen htol)

/-- C9: `consumeInventory` is a fixed point on its own output — running it
again on the returned `remainingRequired` and `remainingInventory` with the
same tolerance returns both unchanged with an empty `used` list; and every
required quantity with no inventory match within tolerance appears in
`remainingRequired` rather than being dropped. -/
theorem C9_consume_fixed_point (required : List ReqItem) (inventory : List InvPiece)
    (tol : ℚ) :
    consumeInventory (consumeInventory required inventory tol).1
        (consumeInventory required inventory tol).2.1 tol =
      ((consumeInventory required inventory tol).1,
        (consumeInventory required inventory tol).2.1, []) ∧
    ∀ r ∈ required, 0 < r.qty →
      (∀ p ∈ inventory, 0 < p.qty → tol < |p.len - r.len|) →
      r ∈ (consumeInventory required inventory tol).1 := by
  have hrr : (consumeInventory required inventory tol).1 =
      (consumeLoop tol required inventory).1.filter (fun x => 0 < x.qty) := rfl
  have hri : (consumeInventory required inventory tol).2.1 =
      (consumeLoop tol required inventory).2.1.filter (fun p => 0 < p.qty) := rfl
  constructor
  · rw [hrr, hri]
    have hkey : ∀ x ∈ (consumeLoop tol required inventory).1.filter (fun x => 0 < x.qty),
        ∀ j, j < ((consumeLoop tol required inventory).2.1.filter
          (fun p => 0 < p.qty)).length →
        ¬(|(((consumeLoop tol required inventory).2.1.filter
              (fun p => 0 < p.qty)).getD j noPiece).len - x.len| ≤ tol ∧
          0 < (((consumeLoop tol required inventory).2.1.filter
              (fun p => 0 < p.qty)).getD j noPiece).qty) := by
      intro x hx j hj hcontra
      obtain ⟨hx1, hx2⟩ := List.mem_filter.mp hx
      have hxq : 0 < x.qty := by simpa using hx2
      have hpmem : ((consumeLoop tol required inventory).2.1.filter
          (fun p => 0 < p.qty)).getD j noPiece ∈
          (consumeLoop tol required inventory).2.1.filter (fun p => 0 < p.qty) :=
        getD_mem_of_lt _ j hj
      obtain ⟨hp1, _⟩ := List.mem_filter.mp hpmem
      obtain ⟨k, hk, hkeq⟩ := List.mem_iff_getElem.mp hp1
      have hklen : k < inventory.length := by
        rw [← consumeLoop_length tol required inventory]
        exact hk
      have hgd : (consumeLoop tol required inventory).2.1.getD k noPiece =
          ((consumeLoop tol required inventory).2.1.filter
            (fun p => 0 < p.qty)).getD j noPiece := by
        rw [List.getD_eq_getElem _ _ hk, hkeq]
      have hq0 := consumeLoop_leftover tol required inventory x hx1 hxq k hklen
        (by rw [hgd]; exact hcontra.1)
      rw [hgd] at hq0
      linarith [hcontra.2]
    have hnoop := consumeLoop_noop tol _ _ hkey
    have hfil1 : ((consumeLoop tol required inventory).1.filter
        (fun x => 0 < x.qty)).filter (fun x => 0 < x.qty) =
        (consumeLoop tol required inventory).1.filter (fun x => 0 < x.qty) :=
      List.filter_eq_self.mpr (fun a ha => (List.mem_filter.mp ha).2)
    have hfil2 : ((consumeLoop tol required inventory).2.1.filter
        (fun p => 0 < p.qty)).filter (fun p => 0 < p.qty) =
        (consumeLoop tol required inventory).2.1.filter (fun p => 0 < p.qty) :=
      List.filter_eq_self.mpr (fun a ha => (List.mem_filter.mp ha).2)
    show ((consumeLoop tol _ _).1.filter (fun x => 0 < x.qty),
        (consumeLoop tol _ _).2.1.filter (fun p => 0 < p.qty),
        (consumeLoop tol _ _).2.2) = _
    rw [hnoop]
    dsimp only
    rw [hfil1, hfil2]
  · intro r hr hrq hno
    have hno2 : ∀ j, j < inventory.length →
        |(inventory.getD j noPiece).len - r.len| ≤ tol →
        (inventory.getD j noPiece).qty ≤ 0 := by
      intro j hj htol
      by_contra hq
      push_neg at hq
      exact absurd htol (not_le.mpr (hno (inventory.getD j noPiece)
        (getD_mem_of_lt _ j hj) hq))
    have hmem := consumeLoop_unmatched tol required inventory r hr hno2
    rw [hrr]
    apply List.mem_filter.mpr
    exact ⟨hmem, by simpa using hrq⟩

/-- Witness for C9 at `required = [{len 10, qty 2}]`,
`inventory = [{len 20, qty 1}]`, `tolerance = 0.25` (no match possible). -/
theorem C9_consume_fixed_point_witness :
    (consumeInventory (consumeInventory [⟨10, 2⟩] [⟨20, 1⟩] (1 / 4)).1
        (consumeInventory [⟨10, 2⟩] [⟨20, 1⟩] (1 / 4)).2.1 (1 / 4) =
      ((consumeInventory [⟨10, 2⟩] [⟨20, 1⟩] (1 / 4)).1,
        (consumeInventory [⟨10, 2⟩] [⟨20, 1⟩] (1 / 4)).2.1, []) ) ∧
    (⟨10, 2⟩ : ReqItem) ∈ (consumeInventory [⟨10, 2⟩] [⟨20, 1⟩] (1 / 4)).1 :=
  ⟨(C9_consume_fixed_point [⟨10, 2⟩] [⟨20, 1⟩] (1 / 4)).1,
    (C9_consume_fixed_point [⟨10, 2⟩] [⟨20, 1⟩] (1 / 4)).2 ⟨10, 2⟩ (by decide)
      (by norm_num) (by
        intro p hp hq
        rw [List.mem_singleton] at hp
        subst hp
        norm_num)⟩
